import Mathlib

/-!
# WareHound.Sniffer: flow table and statistics exports

A shallow embedding of `src/WareHound.Sniffer/FlowTable.h` and of
`src/WareHound.Sniffer/StatisticsExports.cpp`, and theorems about them.

Conventions of the embedding.

* `uint64_t` and `size_t` values are natural numbers; every increment,
  decrement and subtraction the source performs on them is written with
  an explicit reduction modulo `2 ^ 64` (the 64-bit build of the library).
* `std::unordered_map<FlowKey, FlowEntry>` is an association list
  `List (FlowKey × FlowEntry)` in iteration order. `find` returns the first
  pair with the key, `emplace` of an absent key adds one pair, `erase` inside
  the iteration drops the current pair and keeps the others.
* A returned `FlowEntry*` is the value of the entry it points to
  (`none` for `nullptr`); the `created` out-parameter is a returned `Bool`.
* The mutex is not modelled: every operation runs to completion on the
  state it is given.
-/

namespace WareHound

/-- The modulus of the 64-bit unsigned words of the source (`uint64_t`, `size_t`). -/
def U64_MOD : Nat := 2 ^ 64

/-- Unsigned 64-bit subtraction `a - b` as the machine computes it. -/
def u64_sub (a b : Nat) : Nat := (a + U64_MOD - b % U64_MOD) % U64_MOD

/-- Unsigned 64-bit increment `x++`. -/
def u64_inc (x : Nat) : Nat := (x + 1) % U64_MOD

/-- Unsigned 64-bit decrement `x--`. -/
def u64_dec (x : Nat) : Nat := (x + U64_MOD - 1) % U64_MOD

/-- Modelled from the spec: `FlowKey` is declared in `PacketParser.h`, which is
not among the sources. The spec gives its five fields (`src_ip, dst_ip: u32`,
`src_port, dst_port: u16`, `protocol: u8`) and says that equality covers all
five of them. -/
structure FlowKey where
  src_ip : Nat
  dst_ip : Nat
  src_port : Nat
  dst_port : Nat
  protocol : Nat
deriving DecidableEq, Repr

/-- Modelled from the spec: `TcpState` is declared in `PacketParser.h`; the spec
lists its values. -/
inductive TcpState where
  | CLOSED
  | SYN_SENT
  | SYN_RECEIVED
  | ESTABLISHED
  | FIN_WAIT_1
  | FIN_WAIT_2
  | CLOSE_WAIT
  | LAST_ACK
  | TIME_WAIT
  | CLOSING
deriving DecidableEq, Repr

/-- Modelled from the spec: `AppProtocol` is declared in `PacketParser.h`; the
source names `UNKNOWN`, the spec names the protocols the detector labels. -/
inductive AppProtocol where
  | UNKNOWN
  | HTTP
  | TLS
  | DNS
  | SSH
  | SMTP
  | FTP
  | POP3
  | IMAP
deriving DecidableEq, Repr, Fintype

/-- The record `struct FlowStats`, with the default member initialisers of the source. -/
structure FlowStats where
  first_seen_us : Nat := 0
  last_seen_us : Nat := 0
  packets_to_server : Nat := 0
  packets_to_client : Nat := 0
  bytes_to_server : Nat := 0
  bytes_to_client : Nat := 0
  tcp_state : TcpState := TcpState.CLOSED
  tcp_seq_client : Nat := 0
  tcp_seq_server : Nat := 0
  tcp_ack_client : Nat := 0
  tcp_ack_server : Nat := 0
  tcp_window_client : Nat := 0
  tcp_window_server : Nat := 0
  has_syn : Bool := false
  has_syn_ack : Bool := false
  has_fin : Bool := false
  has_rst : Bool := false
  app_protocol : AppProtocol := AppProtocol.UNKNOWN
  app_confidence : Nat := 0
deriving DecidableEq, Repr

/-- The member `FlowStats::TotalPackets`. -/
def FlowStats.TotalPackets (s : FlowStats) : Nat :=
  (s.packets_to_server + s.packets_to_client) % U64_MOD

/-- The member `FlowStats::TotalBytes`. -/
def FlowStats.TotalBytes (s : FlowStats) : Nat :=
  (s.bytes_to_server + s.bytes_to_client) % U64_MOD

/-- The record `struct FlowEntry`, with the default member initialisers of the source. -/
structure FlowEntry where
  key : FlowKey
  stats : FlowStats := {}
  active : Bool := true
  payload_collection_enabled : Bool := false
  payload_max_size : Nat := 65536
  payload_to_server : List Nat := []
  payload_to_client : List Nat := []
deriving DecidableEq, Repr

/-- The constructor `explicit FlowEntry(const FlowKey& k) : key(k) {}`. -/
def FlowEntry.ofKey (k : FlowKey) : FlowEntry := { key := k }

/-- The data members of `class FlowTable`. -/
structure FlowTable where
  flows_ : List (FlowKey × FlowEntry)
  max_flows_ : Nat
  flow_count_ : Nat
  total_lookups_ : Nat
  total_insertions_ : Nat
deriving DecidableEq, Repr

namespace FlowTable

/-- The constant `DEFAULT_TABLE_SIZE`. -/
def DEFAULT_TABLE_SIZE : Nat := 65536

/-- The constant `DEFAULT_MAX_FLOWS`. -/
def DEFAULT_MAX_FLOWS : Nat := 100000

/-- The constructor `FlowTable(table_size, max_flows)`: an empty map (the
`reserve` call changes no observable state) and zeroed counters. -/
def create (table_size max_flows : Nat) : FlowTable :=
  let _reserved := table_size
  { flows_ := [], max_flows_ := max_flows, flow_count_ := 0,
    total_lookups_ := 0, total_insertions_ := 0 }

/-- The call `flows_.find(key)`: the stored pair with this key, if any. -/
def find (flows : List (FlowKey × FlowEntry)) (key : FlowKey) : Option (FlowKey × FlowEntry) :=
  flows.find? (fun p => decide (p.1 = key))

/-- The method `FlowTable::LookupOrCreate`. The result is the entry the returned
pointer refers to (`none` for `nullptr`), the value written to `created`, and
the table after the call. -/
def LookupOrCreate (t : FlowTable) (key : FlowKey) (timestamp_us : Nat) :
    (Option FlowEntry × Bool) × FlowTable :=
  let t1 : FlowTable := { t with total_lookups_ := u64_inc t.total_lookups_ }
  match find t1.flows_ key with
  | some p => ((some p.2, false), t1)
  | none =>
    if t1.flows_.length ≥ t1.max_flows_ then
      ((none, false), t1)
    else
      let entry0 : FlowEntry := FlowEntry.ofKey key
      let entry1 : FlowEntry :=
        { entry0 with stats := { entry0.stats with first_seen_us := timestamp_us } }
      let entry : FlowEntry :=
        { entry1 with stats := { entry1.stats with last_seen_us := timestamp_us } }
      ((some entry, true),
        { t1 with
          flows_ := (key, entry) :: t1.flows_
          total_insertions_ := u64_inc t1.total_insertions_
          flow_count_ := u64_inc t1.flow_count_ })

/-- The method `FlowTable::Lookup`. -/
def Lookup (t : FlowTable) (key : FlowKey) : Option FlowEntry × FlowTable :=
  let t1 : FlowTable := { t with total_lookups_ := u64_inc t.total_lookups_ }
  match find t1.flows_ key with
  | some p => (some p.2, t1)
  | none => (none, t1)

/-- The `for` loop of `FlowTable::CleanupExpired` over the map: the pairs that are
kept, the value of `removed` and the value of `flow_count_` when the loop ends. -/
def CleanupExpired_loop (current_time_us timeout_us : Nat) :
    List (FlowKey × FlowEntry) → Nat → Nat → List (FlowKey × FlowEntry) × Nat × Nat
  | [], removed, flow_count => ([], removed, flow_count)
  | p :: rest, removed, flow_count =>
    if u64_sub current_time_us p.2.stats.last_seen_us > timeout_us then
      CleanupExpired_loop current_time_us timeout_us rest (u64_inc removed) (u64_dec flow_count)
    else
      let r := CleanupExpired_loop current_time_us timeout_us rest removed flow_count
      (p :: r.1, r.2.1, r.2.2)

/-- The method `FlowTable::CleanupExpired`: the returned `removed` and the table
after the call. -/
def CleanupExpired (t : FlowTable) (current_time_us timeout_us : Nat) : Nat × FlowTable :=
  let r := CleanupExpired_loop current_time_us timeout_us t.flows_ 0 t.flow_count_
  (r.2.1, { t with flows_ := r.1, flow_count_ := r.2.2 })

/-- The method `FlowTable::Clear`. -/
def Clear (t : FlowTable) : FlowTable :=
  { t with flows_ := [], flow_count_ := 0 }

/-- The getter `GetFlowCount`. -/
def GetFlowCount (t : FlowTable) : Nat := t.flow_count_

/-- The getter `GetMaxFlows`. -/
def GetMaxFlows (t : FlowTable) : Nat := t.max_flows_

/-- The getter `GetTotalLookups`. -/
def GetTotalLookups (t : FlowTable) : Nat := t.total_lookups_

/-- The getter `GetTotalInsertions`. -/
def GetTotalInsertions (t : FlowTable) : Nat := t.total_insertions_

/-- The loop of `FlowTable::GetAllFlows`: `push_back(pair.second)` for each pair. -/
def GetAllFlows_loop : List (FlowKey × FlowEntry) → List FlowEntry → List FlowEntry
  | [], result => result
  | p :: rest, result => GetAllFlows_loop rest (result ++ [p.2])

/-- The method `FlowTable::GetAllFlows` (a `const` method: the table is not changed). -/
def GetAllFlows (t : FlowTable) : List FlowEntry × FlowTable :=
  (GetAllFlows_loop t.flows_ [], t)

end FlowTable

/-- Modelled from the spec: a write through the `FlowEntry*` that
`LookupOrCreate(key)` or `Lookup(key)` returned. The holder of these pointers is
`FlowTracker`, which is not among the sources; the spec (4.5, steps 4 to 6) has
it update `last_seen_us`, the counters, the TCP state, the payload buffers and
the classification of the entry, never its key. The write replaces every member
of the entry stored under `key` except `key` by the member of `entry`; it does
nothing when `key` is not stored, since no pointer to such an entry exists. -/
def FlowTable.WriteEntry (t : FlowTable) (key : FlowKey) (entry : FlowEntry) : FlowTable :=
  { t with
    flows_ := t.flows_.map
      (fun p => if p.1 = key then (p.1, { entry with key := p.2.key }) else p) }

/-- One call on a `FlowTable`, with its arguments, or one write through a returned
entry pointer. -/
inductive Op where
  | LookupOrCreate (key : FlowKey) (timestamp_us : Nat)
  | Lookup (key : FlowKey)
  | CleanupExpired (current_time_us timeout_us : Nat)
  | Clear
  | GetAllFlows
  | WriteEntry (key : FlowKey) (entry : FlowEntry)
deriving DecidableEq, Repr

/-- The table after one call or write. -/
def step (t : FlowTable) : Op → FlowTable
  | Op.LookupOrCreate key ts => (t.LookupOrCreate key ts).2
  | Op.Lookup key => (t.Lookup key).2
  | Op.CleanupExpired now timeout => (t.CleanupExpired now timeout).2
  | Op.Clear => t.Clear
  | Op.GetAllFlows => t.GetAllFlows.2
  | Op.WriteEntry key entry => t.WriteEntry key entry

/-- The table after a sequence of calls, first call first. -/
def run (t : FlowTable) (ops : List Op) : FlowTable :=
  ops.foldl step t

/-- The keys stored in the map. -/
def FlowTable.keys (t : FlowTable) : List FlowKey := t.flows_.map Prod.fst

/-- The test of the loop of `CleanupExpired` on one stored pair:
`current_time_us - last_seen_us > timeout_us` in unsigned 64-bit arithmetic. -/
def expired (current_time_us timeout_us : Nat) (p : FlowKey × FlowEntry) : Bool :=
  decide (u64_sub current_time_us p.2.stats.last_seen_us > timeout_us)

/-- The counting invariant of the table: `flow_count_` is the size of the map,
the size is at most `max_flows_`, and `max_flows_` is a `size_t` value. -/
def FlowTable.Inv (t : FlowTable) : Prop :=
  t.flow_count_ = t.flows_.length ∧ t.flows_.length ≤ t.max_flows_ ∧ t.max_flows_ < 2 ^ 64

/-- The map invariant of the table: the stored keys are pairwise distinct and every
entry is stored under its own key. -/
def FlowTable.KeysOk (t : FlowTable) : Prop :=
  t.keys.Nodup ∧ ∀ p ∈ t.flows_, p.2.key = p.1

/-- The tables reachable from an empty one: a freshly constructed table, with
`max_flows` a `size_t` value, after any finite sequence of calls and of writes
through returned entry pointers. -/
def Reachable (t : FlowTable) : Prop :=
  ∃ (table_size max_flows : Nat) (ops : List Op),
    max_flows < 2 ^ 64 ∧ t = run (FlowTable.create table_size max_flows) ops

/-- A sample flow `10.0.0.1:54321 → 10.0.0.2:80` over TCP. -/
def keyA : FlowKey :=
  { src_ip := 167772161, dst_ip := 167772162, src_port := 54321, dst_port := 80, protocol := 6 }

/-- A sample flow `10.0.0.3:40000 → 10.0.0.2:443` over TCP. -/
def keyB : FlowKey :=
  { src_ip := 167772163, dst_ip := 167772162, src_port := 40000, dst_port := 443, protocol := 6 }

/-- A sample flow `10.0.0.4:5353 → 10.0.0.2:53` over UDP. -/
def keyC : FlowKey :=
  { src_ip := 167772164, dst_ip := 167772162, src_port := 5353, dst_port := 53, protocol := 17 }

/-- A sample sequence of calls: three insertions, a lookup and a cleanup. -/
def sampleOps : List Op :=
  [Op.LookupOrCreate keyA 10, Op.LookupOrCreate keyB 11, Op.LookupOrCreate keyC 12,
   Op.Lookup keyA, Op.CleanupExpired 400000000 300000000, Op.GetAllFlows]

/-- The table of scenario S4 when it is full: `max_flows = 2`, flows A and B inserted. -/
def tableAB : FlowTable :=
  run (FlowTable.create 65536 2) [Op.LookupOrCreate keyA 10, Op.LookupOrCreate keyB 11]

/-- A table with room left: `max_flows = 100000` and flow A inserted at time 10. -/
def tableA : FlowTable :=
  run (FlowTable.create 65536 100000) [Op.LookupOrCreate keyA 10]

/-- The statistics of flow A after the handshake of scenario S1: SYN, SYN+ACK and
ACK seen at times 10, 20 and 30. -/
def statsHandshake : FlowStats :=
  { first_seen_us := 10, last_seen_us := 30, packets_to_server := 2, packets_to_client := 1,
    bytes_to_server := 120, bytes_to_client := 60, tcp_state := TcpState.ESTABLISHED,
    has_syn := true, has_syn_ack := true }

/-- A table of a running capture: flow A inserted at time 10 and updated through
its pointer by the handshake, then flow B inserted at time 40. -/
def tableRunning : FlowTable :=
  run (FlowTable.create 65536 100000)
    [Op.LookupOrCreate keyA 10, Op.WriteEntry keyA { key := keyA, stats := statsHandshake },
     Op.LookupOrCreate keyB 40]

/-- A table with an old and a recent flow: A last seen at 0, B last seen at 200000000. -/
def tableOldNew : FlowTable :=
  run (FlowTable.create 65536 100000) [Op.LookupOrCreate keyA 0, Op.LookupOrCreate keyB 200000000]

/-- The member `FlowEntry::IsToServer`. -/
def FlowEntry.IsToServer (e : FlowEntry) (pkt_key : FlowKey) : Bool :=
  decide (pkt_key.src_ip = e.key.src_ip) && decide (pkt_key.src_port = e.key.src_port)

/-- The member `FlowEntry::AppendPayload`. The pointer `data` is `none` for
`nullptr` and otherwise the memory it points to, read by offset; `len` is the
`uint16_t` argument. The subtraction `payload_max_size - buffer.size()` is the
unsigned one of `size_t`. -/
def FlowEntry.AppendPayload (e : FlowEntry) (data : Option (Nat → Nat)) (len : Nat)
    (to_server : Bool) : FlowEntry :=
  match data with
  | none => e
  | some mem =>
    if !e.payload_collection_enabled || len == 0 then e
    else
      let buffer := if to_server then e.payload_to_server else e.payload_to_client
      let remaining := u64_sub e.payload_max_size buffer.length
      let to_copy := min len remaining
      if to_copy > 0 then
        let buffer1 := buffer ++ (List.range to_copy).map mem
        if to_server then { e with payload_to_server := buffer1 }
        else { e with payload_to_client := buffer1 }
      else e

/-- The key of a packet in the reverse direction of `k`: the endpoints swapped. -/
def FlowKey.swapped (k : FlowKey) : FlowKey :=
  { src_ip := k.dst_ip, dst_ip := k.src_ip, src_port := k.dst_port, dst_port := k.src_port,
    protocol := k.protocol }

/-- A sample entry that collects payload, with a cap of 4 bytes and 3 bytes stored
in the to-server buffer. -/
def entryPayload : FlowEntry :=
  { key := keyA, payload_collection_enabled := true, payload_max_size := 4,
    payload_to_server := [71, 69, 84], payload_to_client := [] }

/-! ### `StatisticsExports.cpp`: the global state and the packet path

The three `std::unordered_map` histograms are association lists `(key, count)`
in iteration order. The class `FlowTracker` is declared in `FlowTracker.h`,
which is not among the sources: the functions of `StatisticsExports.cpp` are
modelled over an arbitrary tracker, given by its state type and the member
functions that are called on it. -/

/-- The statement `hist[key]++` on a histogram: `operator[]` inserts the key with
count 0 when it is absent (placed last in the iteration order, which the
standard leaves unspecified), then the count is incremented as a `uint64_t`. -/
def hist_inc : List (Nat × Nat) → Nat → List (Nat × Nat)
  | [], key => [(key, u64_inc 0)]
  | p :: rest, key =>
    if p.1 = key then (p.1, u64_inc p.2) :: rest else p :: hist_inc rest key

/-- The count a histogram holds for a key, 0 when the key is absent. -/
def hist_count (h : List (Nat × Nat)) (key : Nat) : Nat :=
  match h.find? (fun p => decide (p.1 = key)) with
  | some p => p.2
  | none => 0

/-- The sum of all counts of a histogram. -/
def hist_sum (h : List (Nat × Nat)) : Nat := (h.map Prod.snd).sum

/-- The member functions of `FlowTracker` that `StatisticsExports.cpp` calls, on a
tracker state of type `σ`: the constructor from `Config`
(`table_size`, `max_flows`, `flow_timeout_us`), `ProcessPacket(data, len, ts)`
with the entry its returned pointer refers to (`none` for `nullptr`),
`Clear()`, and `GetFlowTable().GetAllFlows()`. -/
structure FlowTrackerApi (σ : Type) where
  create : Nat → Nat → Nat → σ
  ProcessPacket : σ → List Nat → Nat → Nat → Option FlowEntry × σ
  Clear : σ → σ
  GetAllFlows : σ → List FlowEntry

/-- The file-scope variables of `StatisticsExports.cpp`. -/
structure StatsState (σ : Type) where
  g_flowTracker : Option σ
  g_nativeStatsEnabled : Bool
  g_sourceIPCounts : List (Nat × Nat)
  g_destIPCounts : List (Nat × Nat)
  g_portCounts : List (Nat × Nat)
deriving DecidableEq

/-- The state at program start: no tracker, stats disabled, empty histograms. -/
def StatsState.initial (σ : Type) : StatsState σ :=
  { g_flowTracker := none, g_nativeStatsEnabled := false,
    g_sourceIPCounts := [], g_destIPCounts := [], g_portCounts := [] }

/-- The function `InitFlowTracker`. -/
def InitFlowTracker {σ : Type} (api : FlowTrackerApi σ) (s : StatsState σ) : StatsState σ :=
  match s.g_flowTracker with
  | some _ => s
  | none => { s with g_flowTracker := some (api.create 65536 100000 (300 * 1000000)) }

/-- The function `ProcessPacketForStats`. -/
def ProcessPacketForStats {σ : Type} (api : FlowTrackerApi σ) (s : StatsState σ)
    (data : List Nat) (len timestamp_us : Nat) : StatsState σ :=
  if !s.g_nativeStatsEnabled then s
  else
    let s1 := InitFlowTracker api s
    match s1.g_flowTracker with
    | none => s1
    | some tracker =>
      let r := api.ProcessPacket tracker data len timestamp_us
      let s2 : StatsState σ := { s1 with g_flowTracker := some r.2 }
      match r.1 with
      | none => s2
      | some flow =>
        let src := hist_inc s2.g_sourceIPCounts flow.key.src_ip
        let dst := hist_inc s2.g_destIPCounts flow.key.dst_ip
        let ports1 :=
          if flow.key.src_port > 0 then hist_inc s2.g_portCounts flow.key.src_port
          else s2.g_portCounts
        let ports2 :=
          if flow.key.dst_port > 0 then hist_inc ports1 flow.key.dst_port else ports1
        { s2 with g_sourceIPCounts := src, g_destIPCounts := dst, g_portCounts := ports2 }

/-- The export `Sniffer_EnableNativeStats`. -/
def Sniffer_EnableNativeStats {σ : Type} (api : FlowTrackerApi σ) (s : StatsState σ)
    (enable : Bool) : StatsState σ :=
  let s1 : StatsState σ := { s with g_nativeStatsEnabled := enable }
  if enable then InitFlowTracker api s1 else s1

/-- The export `Sniffer_IsNativeStatsEnabled`. -/
def Sniffer_IsNativeStatsEnabled {σ : Type} (s : StatsState σ) : Bool :=
  s.g_nativeStatsEnabled

/-- The export `Sniffer_ClearStatistics`. -/
def Sniffer_ClearStatistics {σ : Type} (api : FlowTrackerApi σ) (s : StatsState σ) :
    StatsState σ :=
  let s1 : StatsState σ :=
    match s.g_flowTracker with
    | some tracker => { s with g_flowTracker := some (api.Clear tracker) }
    | none => s
  { s1 with g_sourceIPCounts := [], g_destIPCounts := [], g_portCounts := [] }

/-- One call on the statistics state, with its arguments. -/
inductive StatsOp where
  | ProcessPacketForStats (data : List Nat) (len timestamp_us : Nat)
  | ClearStatistics
  | EnableNativeStats (enable : Bool)
deriving DecidableEq, Repr

/-- The tracker that `ProcessPacketForStats` calls in state `s`: the existing one,
or the one `InitFlowTracker` creates. -/
def trackerOf {σ : Type} (api : FlowTrackerApi σ) (s : StatsState σ) : σ :=
  match s.g_flowTracker with
  | some tracker => tracker
  | none => api.create 65536 100000 (300 * 1000000)

/-- The entry the tracker returns for a packet offered in state `s`. -/
def trackerReturn {σ : Type} (api : FlowTrackerApi σ) (s : StatsState σ)
    (data : List Nat) (len timestamp_us : Nat) : Option FlowEntry :=
  (api.ProcessPacket (trackerOf api s) data len timestamp_us).1

/-- The state after one call, together with the number of packets for which the
tracker returned an entry since the last `Sniffer_ClearStatistics`. -/
def statsStep {σ : Type} (api : FlowTrackerApi σ) (sn : StatsState σ × Nat) :
    StatsOp → StatsState σ × Nat
  | StatsOp.ProcessPacketForStats data len ts =>
    (ProcessPacketForStats api sn.1 data len ts,
      if sn.1.g_nativeStatsEnabled = true ∧ (trackerReturn api sn.1 data len ts).isSome = true
      then sn.2 + 1 else sn.2)
  | StatsOp.ClearStatistics => (Sniffer_ClearStatistics api sn.1, 0)
  | StatsOp.EnableNativeStats enable => (Sniffer_EnableNativeStats api sn.1 enable, sn.2)

/-- The state and the count of accepted packets after a sequence of calls. -/
def statsRun {σ : Type} (api : FlowTrackerApi σ) (sn : StatsState σ × Nat)
    (ops : List StatsOp) : StatsState σ × Nat :=
  ops.foldl (statsStep api) sn

/-- A stand-in tracker for the examples: a frame is the list of the five fields
of its flow key, the entry returned is a fresh entry for that key, and any
other frame is a parse failure. -/
def echoTracker : FlowTrackerApi Unit :=
  { create := fun _ _ _ => ()
    ProcessPacket := fun _ data _ _ =>
      match data with
      | [a, b, c, d, e] =>
        (some (FlowEntry.ofKey
          { src_ip := a, dst_ip := b, src_port := c, dst_port := d, protocol := e }), ())
      | _ => (none, ())
    Clear := fun _ => ()
    GetAllFlows := fun _ => [] }

/-- A frame of flow A for the stand-in tracker. -/
def frameA : List Nat := [167772161, 167772162, 54321, 80, 6]

/-- A frame of an ICMP flow (no ports) for the stand-in tracker. -/
def frameICMP : List Nat := [167772161, 167772162, 0, 0, 1]

/-- A sample sequence of statistics calls. -/
def sampleStatsOps : List StatsOp :=
  [StatsOp.ProcessPacketForStats frameA 60 1, StatsOp.EnableNativeStats true,
   StatsOp.ProcessPacketForStats frameA 60 2, StatsOp.ProcessPacketForStats frameICMP 60 3,
   StatsOp.ProcessPacketForStats [1, 2] 60 4, StatsOp.ProcessPacketForStats frameA 60 5]

/-- The state of the stand-in tracker after native stats have been enabled. -/
def statsEnabled : StatsState Unit :=
  Sniffer_EnableNativeStats echoTracker (StatsState.initial Unit) true

/-! ### `StatisticsExports.cpp`: the reports

`std::sort(first, last, comp)` is a library function: the standard fixes its
result only up to the order of elements that `comp` does not separate. The
reports are modelled over an arbitrary `sort`; `IsStdSort` states what the
standard guarantees, and `sort_desc` is the insertion sort that the library
implementations run on short ranges. -/

/-- The conversion `static_cast<int>(n)` of a `size_t` to the 32-bit `int`. -/
def to_int32 (n : Nat) : Int :=
  if n % 2 ^ 32 < 2 ^ 31 then ((n % 2 ^ 32 : Nat) : Int)
  else ((n % 2 ^ 32 : Nat) : Int) - 2 ^ 32

/-- What the standard guarantees of `std::sort` with the comparator
`comp(a, b) = f(a) > f(b)`: the result is a rearrangement of the input in which
no element is followed by one that `comp` places before it. -/
def IsStdSort {α : Type} (f : α → Nat) (sort : List α → List α) : Prop :=
  ∀ l : List α, (sort l).Perm l ∧ (sort l).Pairwise (fun a b => f b ≤ f a)

/-- One insertion step of `sort_desc`: `a` moves left past the elements that
`comp` places after it. -/
def insert_desc {α : Type} (f : α → Nat) (a : α) : List α → List α
  | [] => [a]
  | b :: rest => if f a ≥ f b then a :: b :: rest else b :: insert_desc f a rest

/-- Insertion sort with the comparator `comp(a, b) = f(a) > f(b)`. -/
def sort_desc {α : Type} (f : α → Nat) : List α → List α
  | [] => []
  | a :: rest => insert_desc f a (sort_desc f rest)

/-- The fields of `NativeTalkerStats` that `StatisticsExports.cpp` writes. -/
structure NativeTalkerStats where
  ipAddress : String
  packetCount : Nat
  byteCount : Nat
deriving DecidableEq, Repr

/-- The fields of `NativePortStats` that `StatisticsExports.cpp` writes. -/
structure NativePortStats where
  port : Nat
  serviceName : String
  packetCount : Nat
deriving DecidableEq, Repr

/-- The fields `protocolName`, `packetCount` and `byteCount` of
`NativeProtocolStats`. The field `percentage` is a `double` and is not modelled. -/
structure NativeProtocolStats where
  protocolName : String
  packetCount : Nat
  byteCount : Nat
deriving DecidableEq, Repr

/-- The helper `GetServiceName`. -/
def GetServiceName (port : Nat) : String :=
  if port = 20 then "FTP-DATA"
  else if port = 21 then "FTP"
  else if port = 22 then "SSH"
  else if port = 23 then "TELNET"
  else if port = 25 then "SMTP"
  else if port = 53 then "DNS"
  else if port = 67 ∨ port = 68 then "DHCP"
  else if port = 80 then "HTTP"
  else if port = 110 then "POP3"
  else if port = 123 then "NTP"
  else if port = 143 then "IMAP"
  else if port = 161 ∨ port = 162 then "SNMP"
  else if port = 389 then "LDAP"
  else if port = 443 then "HTTPS"
  else if port = 445 then "SMB"
  else if port = 993 then "IMAPS"
  else if port = 995 then "POP3S"
  else if port = 3306 then "MySQL"
  else if port = 3389 then "RDP"
  else if port = 5432 then "PostgreSQL"
  else if port = 6379 then "Redis"
  else if port = 8080 then "HTTP-ALT"
  else if port = 8443 then "HTTPS-ALT"
  else if port = 27017 then "MongoDB"
  else ""

/-- The export `Sniffer_GetTopSourceIPs`: the returned count and the rows written
to `stats[0 .. count)`. `stats` is false for a null buffer; `IP4ToString` is the
address-to-text conversion (`inet_ntop`). -/
def Sniffer_GetTopSourceIPs {σ : Type} (IP4ToString : Nat → String)
    (sort : List (Nat × Nat) → List (Nat × Nat)) (s : StatsState σ) (stats : Bool)
    (maxCount : Int) : Int × List NativeTalkerStats :=
  if !stats || maxCount ≤ 0 then (0, [])
  else
    let sorted := sort s.g_sourceIPCounts
    let count := min maxCount (to_int32 sorted.length)
    (count, (sorted.take count.toNat).map
      (fun p => { ipAddress := IP4ToString p.1, packetCount := p.2, byteCount := 0 }))

/-- The export `Sniffer_GetTopDestIPs`. -/
def Sniffer_GetTopDestIPs {σ : Type} (IP4ToString : Nat → String)
    (sort : List (Nat × Nat) → List (Nat × Nat)) (s : StatsState σ) (stats : Bool)
    (maxCount : Int) : Int × List NativeTalkerStats :=
  if !stats || maxCount ≤ 0 then (0, [])
  else
    let sorted := sort s.g_destIPCounts
    let count := min maxCount (to_int32 sorted.length)
    (count, (sorted.take count.toNat).map
      (fun p => { ipAddress := IP4ToString p.1, packetCount := p.2, byteCount := 0 }))

/-- The export `Sniffer_GetTopPorts`. -/
def Sniffer_GetTopPorts {σ : Type}
    (sort : List (Nat × Nat) → List (Nat × Nat)) (s : StatsState σ) (stats : Bool)
    (maxCount : Int) : Int × List NativePortStats :=
  if !stats || maxCount ≤ 0 then (0, [])
  else
    let sorted := sort s.g_portCounts
    let count := min maxCount (to_int32 sorted.length)
    (count, (sorted.take count.toNat).map
      (fun p => { port := p.1, serviceName := (GetServiceName p.1).take 31, packetCount := p.2 }))

/-- The statements `protoCounts[proto].first += packets` and
`protoCounts[proto].second += bytes`, in `uint64_t` arithmetic; `operator[]`
inserts an absent protocol with the pair `(0, 0)`. -/
def proto_add : List (AppProtocol × Nat × Nat) → AppProtocol → Nat → Nat →
    List (AppProtocol × Nat × Nat)
  | [], proto, packets, bytes => [(proto, (0 + packets) % U64_MOD, (0 + bytes) % U64_MOD)]
  | p :: rest, proto, packets, bytes =>
    if p.1 = proto then
      (p.1, (p.2.1 + packets) % U64_MOD, (p.2.2 + bytes) % U64_MOD) :: rest
    else p :: proto_add rest proto packets bytes

/-- The aggregation loop of `Sniffer_GetProtocolStats` over the flows. -/
def aggregate_protocols (flows : List FlowEntry) : List (AppProtocol × Nat × Nat) :=
  flows.foldl
    (fun acc flow =>
      proto_add acc flow.stats.app_protocol flow.stats.TotalPackets flow.stats.TotalBytes)
    []

/-- The export `Sniffer_GetProtocolStats`, without the `percentage` field.
`GetProtocolName` is `ProtocolDetector::GetProtocolName`, which is not among
the sources. -/
def Sniffer_GetProtocolStats {σ : Type} (api : FlowTrackerApi σ)
    (GetProtocolName : AppProtocol → String)
    (sort : List (AppProtocol × Nat × Nat) → List (AppProtocol × Nat × Nat))
    (s : StatsState σ) (stats : Bool) (maxCount : Int) : Int × List NativeProtocolStats :=
  match s.g_flowTracker with
  | none => (0, [])
  | some tracker =>
    if !stats || maxCount ≤ 0 then (0, [])
    else
      let protoCounts := aggregate_protocols (api.GetAllFlows tracker)
      let sorted := sort protoCounts
      let count := min maxCount (to_int32 sorted.length)
      (count, (sorted.take count.toNat).map
        (fun p =>
          { protocolName := (GetProtocolName p.1).take 31, packetCount := p.2.1,
            byteCount := p.2.2 }))

/-- A statistics state with the given port histogram and nothing else. -/
def portState (h : List (Nat × Nat)) : StatsState Unit :=
  { g_flowTracker := none, g_nativeStatsEnabled := true,
    g_sourceIPCounts := [], g_destIPCounts := [], g_portCounts := h }

/-- What is asked of the entries `sel` reported for a histogram `l` and a row
limit `k`: there are `min k n` of them, each is an entry of the histogram,
their keys are pairwise distinct, their counts do not increase, and no entry
left out has a count greater than that of a reported one. -/
def IsTopSelection (l sel : List (Nat × Nat)) (k : Nat) : Prop :=
  sel.length = min k l.length
    ∧ (∀ x ∈ sel, x ∈ l)
    ∧ (sel.map Prod.fst).Nodup
    ∧ sel.Pairwise (fun x y => y.2 ≤ x.2)
    ∧ (∀ q ∈ l, q ∉ sel → ∀ r ∈ sel, q.2 ≤ r.2)

/-- A statistics state with three small histograms. -/
def sampleReportState : StatsState Unit :=
  { g_flowTracker := none, g_nativeStatsEnabled := true,
    g_sourceIPCounts := [(167772161, 4), (167772163, 9)],
    g_destIPCounts := [(167772162, 13)],
    g_portCounts := [(443, 1), (80, 1), (53, 7), (22, 3)] }

/-- The common body of the three top-K reports, for a histogram `l` and the
function `row` that writes one row. -/
def top_rows {ρ : Type} (row : Nat × Nat → ρ) (sort : List (Nat × Nat) → List (Nat × Nat))
    (l : List (Nat × Nat)) (stats : Bool) (maxCount : Int) : Int × List ρ :=
  if !stats || maxCount ≤ 0 then (0, [])
  else
    let sorted := sort l
    let count := min maxCount (to_int32 sorted.length)
    (count, (sorted.take count.toNat).map row)

/-- The sum of `v` over the flows whose `app_protocol` is `p`. -/
def proto_sum (v : FlowEntry → Nat) (flows : List FlowEntry) (p : AppProtocol) : Nat :=
  ((flows.filter (fun f => decide (f.stats.app_protocol = p))).map v).sum

/-- Sample statistics of an HTTP flow. -/
def statsHttp1 : FlowStats :=
  { app_protocol := AppProtocol.HTTP, packets_to_server := 3, packets_to_client := 2,
    bytes_to_server := 300, bytes_to_client := 2000 }

/-- Sample statistics of a DNS flow. -/
def statsDns : FlowStats :=
  { app_protocol := AppProtocol.DNS, packets_to_server := 1, packets_to_client := 1,
    bytes_to_server := 60, bytes_to_client := 120 }

/-- Sample statistics of a second HTTP flow. -/
def statsHttp2 : FlowStats :=
  { app_protocol := AppProtocol.HTTP, packets_to_server := 4, packets_to_client := 0,
    bytes_to_server := 400, bytes_to_client := 0 }

/-- Three sample flows: two HTTP flows and one DNS flow. -/
def threeFlows : List FlowEntry :=
  [{ key := keyA, stats := statsHttp1 }, { key := keyC, stats := statsDns },
   { key := keyB, stats := statsHttp2 }]

/-- A stand-in tracker whose table holds the three sample flows. -/
def threeFlowTracker : FlowTrackerApi Unit :=
  { create := fun _ _ _ => ()
    ProcessPacket := fun _ _ _ _ => (none, ())
    Clear := fun _ => ()
    GetAllFlows := fun _ => threeFlows }

/-- The statistics state in which the stand-in tracker with three flows exists. -/
def threeFlowState : StatsState Unit :=
  { g_flowTracker := some (), g_nativeStatsEnabled := true,
    g_sourceIPCounts := [], g_destIPCounts := [], g_portCounts := [] }

/-- A stand-in for `ProtocolDetector::GetProtocolName`. -/
def sampleProtocolName : AppProtocol → String
  | AppProtocol.UNKNOWN => "Unknown"
  | AppProtocol.HTTP => "HTTP"
  | AppProtocol.TLS => "TLS"
  | AppProtocol.DNS => "DNS"
  | AppProtocol.SSH => "SSH"
  | AppProtocol.SMTP => "SMTP"
  | AppProtocol.FTP => "FTP"
  | AppProtocol.POP3 => "POP3"
  | AppProtocol.IMAP => "IMAP"

/-- The state of the aggregation loop of `Sniffer_GetProtocolStats` after the
flows `done`: one pair per protocol seen, holding the sums of `TotalPackets`
and `TotalBytes` over the flows of that protocol, modulo `2 ^ 64`. -/
def AggInv (acc : List (AppProtocol × Nat × Nat)) (done : List FlowEntry) : Prop :=
  (acc.map Prod.fst).Nodup
    ∧ (∀ x, x ∈ acc.map Prod.fst ↔ x ∈ done.map (fun f => f.stats.app_protocol))
    ∧ (∀ q ∈ acc,
        q.2.1 = proto_sum (fun f => f.stats.TotalPackets) done q.1 % 2 ^ 64
        ∧ q.2.2 = proto_sum (fun f => f.stats.TotalBytes) done q.1 % 2 ^ 64)

/-! ## Arithmetic of the machine words -/

theorem u64_inc_of_lt {x : Nat} (h : x + 1 < 2 ^ 64) : u64_inc x = x + 1 := by
  unfold u64_inc U64_MOD
  exact Nat.mod_eq_of_lt h

theorem u64_dec_of_pos {x : Nat} (h0 : 0 < x) (h : x < 2 ^ 64) : u64_dec x = x - 1 := by
  unfold u64_dec U64_MOD
  have e : x + 2 ^ 64 - 1 = (x - 1) + 2 ^ 64 := by omega
  rw [e, Nat.add_mod_right]
  exact Nat.mod_eq_of_lt (by omega)

theorem u64_sub_of_le {a b : Nat} (hb : b ≤ a) (ha : a < 2 ^ 64) : u64_sub a b = a - b := by
  unfold u64_sub U64_MOD
  have hb2 : b % 2 ^ 64 = b := Nat.mod_eq_of_lt (by omega)
  rw [hb2]
  have e : a + 2 ^ 64 - b = (a - b) + 2 ^ 64 := by omega
  rw [e, Nat.add_mod_right]
  exact Nat.mod_eq_of_lt (by omega)

/-! ## The loop of `CleanupExpired` -/

theorem CleanupExpired_loop_kept (now T : Nat) (l : List (FlowKey × FlowEntry)) :
    ∀ r c : Nat, (FlowTable.CleanupExpired_loop now T l r c).1
      = l.filter (fun p => !expired now T p) := by
  induction l with
  | nil => intro r c; rfl
  | cons p rest ih =>
    intro r c
    by_cases h : u64_sub now p.2.stats.last_seen_us > T
    · simp [FlowTable.CleanupExpired_loop, expired, h, ih]
    · simp [FlowTable.CleanupExpired_loop, expired, h, ih]

theorem CleanupExpired_loop_removed (now T : Nat) (l : List (FlowKey × FlowEntry)) :
    ∀ r c : Nat, r + l.countP (expired now T) < 2 ^ 64 →
      (FlowTable.CleanupExpired_loop now T l r c).2.1 = r + l.countP (expired now T) := by
  induction l with
  | nil => intro r c _; rfl
  | cons p rest ih =>
    intro r c hlt
    by_cases h : u64_sub now p.2.stats.last_seen_us > T
    · have hp : expired now T p = true := by simp [expired, h]
      rw [List.countP_cons_of_pos _ _ hp] at hlt ⊢
      have hr : u64_inc r = r + 1 := u64_inc_of_lt (by omega)
      simp only [FlowTable.CleanupExpired_loop, h, if_true]
      rw [ih (u64_inc r) (u64_dec c) (by rw [hr]; omega), hr]
      omega
    · have hp : ¬ (expired now T p = true) := by simp [expired, h]
      rw [List.countP_cons_of_neg _ _ hp] at hlt ⊢
      simp only [FlowTable.CleanupExpired_loop, h, if_false]
      exact ih r c hlt

theorem CleanupExpired_loop_count (now T : Nat) (l : List (FlowKey × FlowEntry)) :
    ∀ r c : Nat, l.countP (expired now T) ≤ c → c < 2 ^ 64 →
      (FlowTable.CleanupExpired_loop now T l r c).2.2 = c - l.countP (expired now T) := by
  induction l with
  | nil => intro r c _ _; rfl
  | cons p rest ih =>
    intro r c hle hlt
    by_cases h : u64_sub now p.2.stats.last_seen_us > T
    · have hp : expired now T p = true := by simp [expired, h]
      rw [List.countP_cons_of_pos _ _ hp] at hle ⊢
      have hc : u64_dec c = c - 1 := u64_dec_of_pos (by omega) hlt
      simp only [FlowTable.CleanupExpired_loop, h, if_true]
      rw [ih (u64_inc r) (u64_dec c) (by rw [hc]; omega) (by rw [hc]; omega), hc]
      omega
    · have hp : ¬ (expired now T p = true) := by simp [expired, h]
      rw [List.countP_cons_of_neg _ _ hp] at hle ⊢
      simp only [FlowTable.CleanupExpired_loop, h, if_false]
      exact ih r c hle hlt

theorem length_filter_not_expired (now T : Nat) (l : List (FlowKey × FlowEntry)) :
    (l.filter (fun p => !expired now T p)).length + l.countP (expired now T) = l.length := by
  induction l with
  | nil => rfl
  | cons p rest ih =>
    by_cases hp : expired now T p = true
    · rw [List.countP_cons_of_pos _ _ hp]
      simp [List.filter, hp]
      omega
    · rw [List.countP_cons_of_neg _ _ hp]
      simp [List.filter, hp]
      omega

/-! ## The counting invariant -/

theorem Inv_create (table_size max_flows : Nat) (h : max_flows < 2 ^ 64) :
    (FlowTable.create table_size max_flows).Inv := by
  refine ⟨rfl, ?_, h⟩
  simp [FlowTable.create]

theorem Inv_LookupOrCreate (t : FlowTable) (key : FlowKey) (ts : Nat) (h : t.Inv) :
    (t.LookupOrCreate key ts).2.Inv := by
  obtain ⟨h1, h2, h3⟩ := h
  unfold FlowTable.LookupOrCreate
  simp only
  cases hf : FlowTable.find t.flows_ key with
  | some p => exact ⟨h1, h2, h3⟩
  | none =>
    by_cases hfull : t.flows_.length ≥ t.max_flows_
    · simp only [hfull, if_true]
      exact ⟨h1, h2, h3⟩
    · simp only [hfull, if_false]
      have hinc : u64_inc t.flow_count_ = t.flow_count_ + 1 := u64_inc_of_lt (by omega)
      refine ⟨?_, ?_, h3⟩
      · simp only [List.length_cons]
        rw [hinc, h1]
      · simp only [List.length_cons]
        omega

theorem Inv_Lookup (t : FlowTable) (key : FlowKey) (h : t.Inv) : (t.Lookup key).2.Inv := by
  unfold FlowTable.Lookup
  simp only
  cases hf : FlowTable.find t.flows_ key with
  | some p => exact h
  | none => exact h

theorem Inv_CleanupExpired (t : FlowTable) (now T : Nat) (h : t.Inv) :
    (t.CleanupExpired now T).2.Inv := by
  obtain ⟨h1, h2, h3⟩ := h
  have hlen := length_filter_not_expired now T t.flows_
  refine ⟨?_, ?_, h3⟩
  · show (FlowTable.CleanupExpired_loop now T t.flows_ 0 t.flow_count_).2.2
      = (FlowTable.CleanupExpired_loop now T t.flows_ 0 t.flow_count_).1.length
    rw [CleanupExpired_loop_count now T t.flows_ 0 t.flow_count_ (by omega) (by omega),
      CleanupExpired_loop_kept]
    omega
  · show (FlowTable.CleanupExpired_loop now T t.flows_ 0 t.flow_count_).1.length ≤ t.max_flows_
    rw [CleanupExpired_loop_kept]
    omega

theorem Inv_Clear (t : FlowTable) (h : t.Inv) : t.Clear.Inv := by
  obtain ⟨_, _, h3⟩ := h
  exact ⟨rfl, Nat.zero_le _, h3⟩

theorem Inv_WriteEntry (t : FlowTable) (key : FlowKey) (entry : FlowEntry) (h : t.Inv) :
    (t.WriteEntry key entry).Inv := by
  obtain ⟨h1, h2, h3⟩ := h
  refine ⟨?_, ?_, h3⟩
  · show t.flow_count_ = (t.flows_.map _).length
    rw [List.length_map]
    exact h1
  · show (t.flows_.map _).length ≤ t.max_flows_
    rw [List.length_map]
    exact h2

theorem Inv_step (t : FlowTable) (op : Op) (h : t.Inv) : (step t op).Inv := by
  cases op with
  | LookupOrCreate key ts => exact Inv_LookupOrCreate t key ts h
  | Lookup key => exact Inv_Lookup t key h
  | CleanupExpired now T => exact Inv_CleanupExpired t now T h
  | Clear => exact Inv_Clear t h
  | GetAllFlows => exact h
  | WriteEntry key entry => exact Inv_WriteEntry t key entry h

theorem Inv_run (ops : List Op) : ∀ t : FlowTable, t.Inv → (run t ops).Inv := by
  induction ops with
  | nil => intro t h; exact h
  | cons op rest ih => intro t h; exact ih (step t op) (Inv_step t op h)

theorem max_flows_step (t : FlowTable) (op : Op) : (step t op).max_flows_ = t.max_flows_ := by
  cases op with
  | LookupOrCreate key ts =>
    simp only [step, FlowTable.LookupOrCreate]
    cases hf : FlowTable.find t.flows_ key with
    | some p => rfl
    | none =>
      by_cases hfull : t.flows_.length ≥ t.max_flows_
      · simp only [hfull, if_true]
      · simp only [hfull, if_false]
  | Lookup key =>
    simp only [step, FlowTable.Lookup]
    cases hf : FlowTable.find t.flows_ key with
    | some p => rfl
    | none => rfl
  | CleanupExpired now T => rfl
  | Clear => rfl
  | GetAllFlows => rfl
  | WriteEntry key entry => rfl

theorem max_flows_run (ops : List Op) : ∀ t : FlowTable, (run t ops).max_flows_ = t.max_flows_ := by
  induction ops with
  | nil => intro t; rfl
  | cons op rest ih =>
    intro t
    show (run (step t op) rest).max_flows_ = t.max_flows_
    rw [ih (step t op), max_flows_step]

theorem CleanupExpired_flows (t : FlowTable) (now T : Nat) :
    (t.CleanupExpired now T).2.flows_ = t.flows_.filter (fun p => !expired now T p) :=
  CleanupExpired_loop_kept now T t.flows_ 0 t.flow_count_

theorem expired_eq_of_le (now T : Nat) (p : FlowKey × FlowEntry) (hnow : now < 2 ^ 64)
    (hle : p.2.stats.last_seen_us ≤ now) :
    expired now T p = decide (now - p.2.stats.last_seen_us > T) := by
  unfold expired
  rw [u64_sub_of_le hle hnow]

/-! ## Finding a key in the map -/

theorem find_eq_none_of_not_mem (l : List (FlowKey × FlowEntry)) (key : FlowKey)
    (h : key ∉ l.map Prod.fst) : FlowTable.find l key = none := by
  unfold FlowTable.find
  rw [List.find?_eq_none]
  intro p hp hk
  apply h
  rw [List.mem_map]
  exact ⟨p, hp, of_decide_eq_true hk⟩

theorem find_eq_some_of_mem (l : List (FlowKey × FlowEntry)) (key : FlowKey) (e : FlowEntry)
    (hnd : (l.map Prod.fst).Nodup) (hmem : (key, e) ∈ l) :
    FlowTable.find l key = some (key, e) := by
  induction l with
  | nil => cases hmem
  | cons q rest ih =>
    rw [List.map_cons, List.nodup_cons] at hnd
    obtain ⟨hq, hrest⟩ := hnd
    rcases List.mem_cons.mp hmem with heq | htail
    · subst heq
      simp [FlowTable.find]
    · have hne : q.1 ≠ key := by
        intro hk
        apply hq
        rw [List.mem_map]
        exact ⟨(key, e), htail, hk.symm⟩
      have := ih hrest htail
      unfold FlowTable.find at this ⊢
      rw [List.find?_cons_of_neg _ (by simpa using hne)]
      exact this

theorem not_mem_of_find_eq_none (l : List (FlowKey × FlowEntry)) (key : FlowKey)
    (h : FlowTable.find l key = none) : key ∉ l.map Prod.fst := by
  unfold FlowTable.find at h
  rw [List.find?_eq_none] at h
  intro hmem
  rw [List.mem_map] at hmem
  obtain ⟨p, hp, hk⟩ := hmem
  exact h p hp (decide_eq_true hk)

/-! ## The three outcomes of `LookupOrCreate` -/

theorem LookupOrCreate_found (t : FlowTable) (key : FlowKey) (ts : Nat) (p : FlowKey × FlowEntry)
    (hf : FlowTable.find t.flows_ key = some p) :
    t.LookupOrCreate key ts
      = ((some p.2, false), { t with total_lookups_ := u64_inc t.total_lookups_ }) := by
  simp only [FlowTable.LookupOrCreate, hf]

theorem LookupOrCreate_full (t : FlowTable) (key : FlowKey) (ts : Nat)
    (hf : FlowTable.find t.flows_ key = none) (hfull : t.flows_.length ≥ t.max_flows_) :
    t.LookupOrCreate key ts
      = ((none, false), { t with total_lookups_ := u64_inc t.total_lookups_ }) := by
  simp only [FlowTable.LookupOrCreate, hf, hfull, if_true]

theorem LookupOrCreate_insert (t : FlowTable) (key : FlowKey) (ts : Nat)
    (hf : FlowTable.find t.flows_ key = none) (hroom : ¬ (t.flows_.length ≥ t.max_flows_)) :
    t.LookupOrCreate key ts
      = ((some { FlowEntry.ofKey key with stats := { first_seen_us := ts, last_seen_us := ts } },
          true),
        { flows_ := (key, { FlowEntry.ofKey key with
              stats := { first_seen_us := ts, last_seen_us := ts } }) :: t.flows_
          max_flows_ := t.max_flows_
          flow_count_ := u64_inc t.flow_count_
          total_lookups_ := u64_inc t.total_lookups_
          total_insertions_ := u64_inc t.total_insertions_ }) := by
  simp only [FlowTable.LookupOrCreate, hf, hroom, if_false]
  rfl

/-! ## The lookup counter -/

theorem Lookup_total_lookups (t : FlowTable) (key : FlowKey) :
    (t.Lookup key).2.total_lookups_ = (t.total_lookups_ + 1) % 2 ^ 64 := by
  unfold FlowTable.Lookup
  simp only
  cases hf : FlowTable.find t.flows_ key with
  | some p => rfl
  | none => rfl

/-! ## The map invariant -/

theorem KeysOk_LookupOrCreate (t : FlowTable) (key : FlowKey) (ts : Nat) (h : t.KeysOk) :
    (t.LookupOrCreate key ts).2.KeysOk := by
  obtain ⟨h1, h2⟩ := h
  unfold FlowTable.LookupOrCreate
  simp only
  cases hf : FlowTable.find t.flows_ key with
  | some p => exact ⟨h1, h2⟩
  | none =>
    by_cases hfull : t.flows_.length ≥ t.max_flows_
    · simp only [hfull, if_true]
      exact ⟨h1, h2⟩
    · simp only [hfull, if_false]
      have habs := not_mem_of_find_eq_none t.flows_ key hf
      refine ⟨?_, ?_⟩
      · show ((key, _) :: t.flows_ |>.map Prod.fst).Nodup
        rw [List.map_cons, List.nodup_cons]
        exact ⟨habs, h1⟩
      · intro p hp
        rcases List.mem_cons.mp hp with heq | htail
        · rw [heq]
          rfl
        · exact h2 p htail

theorem KeysOk_Lookup (t : FlowTable) (key : FlowKey) (h : t.KeysOk) :
    (t.Lookup key).2.KeysOk := by
  unfold FlowTable.Lookup
  simp only
  cases hf : FlowTable.find t.flows_ key with
  | some p => exact h
  | none => exact h

theorem KeysOk_CleanupExpired (t : FlowTable) (now T : Nat) (h : t.KeysOk) :
    (t.CleanupExpired now T).2.KeysOk := by
  obtain ⟨h1, h2⟩ := h
  refine ⟨?_, ?_⟩
  · show ((t.CleanupExpired now T).2.flows_.map Prod.fst).Nodup
    rw [CleanupExpired_flows]
    exact List.Nodup.sublist (List.Sublist.map Prod.fst (List.filter_sublist t.flows_)) h1
  · intro p hp
    rw [CleanupExpired_flows] at hp
    exact h2 p (List.mem_of_mem_filter hp)

theorem KeysOk_WriteEntry (t : FlowTable) (key : FlowKey) (entry : FlowEntry) (h : t.KeysOk) :
    (t.WriteEntry key entry).KeysOk := by
  obtain ⟨h1, h2⟩ := h
  have hkeys : (t.WriteEntry key entry).flows_.map Prod.fst = t.flows_.map Prod.fst := by
    show (t.flows_.map _).map Prod.fst = t.flows_.map Prod.fst
    rw [List.map_map]
    apply List.map_congr_left
    intro p _
    by_cases hp : p.1 = key
    · simp [hp]
    · simp [hp]
  refine ⟨?_, ?_⟩
  · show ((t.WriteEntry key entry).flows_.map Prod.fst).Nodup
    rw [hkeys]
    exact h1
  · intro q hq
    have hq2 : q ∈ t.flows_.map
        (fun p => if p.1 = key then (p.1, { entry with key := p.2.key }) else p) := hq
    rw [List.mem_map] at hq2
    obtain ⟨p, hp, hpq⟩ := hq2
    by_cases hk : p.1 = key
    · rw [if_pos hk] at hpq
      rw [← hpq]
      exact h2 p hp
    · rw [if_neg hk] at hpq
      rw [← hpq]
      exact h2 p hp

theorem KeysOk_step (t : FlowTable) (op : Op) (h : t.KeysOk) : (step t op).KeysOk := by
  cases op with
  | LookupOrCreate key ts => exact KeysOk_LookupOrCreate t key ts h
  | Lookup key => exact KeysOk_Lookup t key h
  | CleanupExpired now T => exact KeysOk_CleanupExpired t now T h
  | Clear => exact ⟨List.nodup_nil, fun p hp => by cases hp⟩
  | GetAllFlows => exact h
  | WriteEntry key entry => exact KeysOk_WriteEntry t key entry h

theorem KeysOk_run (ops : List Op) : ∀ t : FlowTable, t.KeysOk → (run t ops).KeysOk := by
  induction ops with
  | nil => intro t h; exact h
  | cons op rest ih => intro t h; exact ih (step t op) (KeysOk_step t op h)

theorem KeysOk_create (table_size max_flows : Nat) :
    (FlowTable.create table_size max_flows).KeysOk :=
  ⟨List.nodup_nil, fun p hp => by cases hp⟩

/-! ## The loop of `GetAllFlows` -/

theorem GetAllFlows_loop_eq (l : List (FlowKey × FlowEntry)) :
    ∀ acc : List FlowEntry, FlowTable.GetAllFlows_loop l acc = acc ++ l.map Prod.snd := by
  induction l with
  | nil => intro acc; simp [FlowTable.GetAllFlows_loop]
  | cons p rest ih => intro acc; simp [FlowTable.GetAllFlows_loop, ih]

theorem GetAllFlows_eq (t : FlowTable) : t.GetAllFlows.1 = t.flows_.map Prod.snd := by
  simp [FlowTable.GetAllFlows, GetAllFlows_loop_eq]

theorem filter_key_of_mem (l : List (FlowKey × FlowEntry)) (k : FlowKey) (e : FlowEntry)
    (hnd : (l.map Prod.fst).Nodup) (hk : ∀ p ∈ l, p.2.key = p.1) (hmem : (k, e) ∈ l) :
    (l.map Prod.snd).filter (fun x => decide (x.key = k)) = [e] := by
  induction l with
  | nil => cases hmem
  | cons q rest ih =>
    rw [List.map_cons, List.nodup_cons] at hnd
    obtain ⟨hq, hrest⟩ := hnd
    have hkq : q.2.key = q.1 := hk q (List.mem_cons_self q rest)
    have hkrest : ∀ p ∈ rest, p.2.key = p.1 := fun p hp => hk p (List.mem_cons_of_mem q hp)
    rcases List.mem_cons.mp hmem with heq | htail
    · have hq1 : q.1 = k := by rw [← heq]
      have hq2 : q.2 = e := by rw [← heq]
      have hnone : (rest.map Prod.snd).filter (fun x => decide (x.key = k)) = [] := by
        rw [List.filter_eq_nil_iff]
        intro x hx hxk
        rw [List.mem_map] at hx
        obtain ⟨p, hp, hpx⟩ := hx
        apply hq
        rw [List.mem_map]
        refine ⟨p, hp, ?_⟩
        rw [← hkrest p hp, hpx, of_decide_eq_true hxk, hq1]
      rw [List.map_cons, List.filter_cons_of_pos (by simp [hkq, hq1]), hnone, hq2]
    · have hne : q.2.key ≠ k := by
        rw [hkq]
        intro hqk
        apply hq
        rw [List.mem_map]
        exact ⟨(k, e), htail, hqk.symm⟩
      rw [List.map_cons, List.filter_cons_of_neg (by simpa using hne)]
      exact ih hrest hkrest htail

/-! ## Claims -/

/-- C1: on a freshly constructed table (with `max_flows` a `size_t` value), after
every call of every finite sequence of `LookupOrCreate`, `Lookup`,
`CleanupExpired`, `Clear` and `GetAllFlows` calls (that is, after every prefix
`ops.take n` of the sequence), `flow_count_` is the number of stored entries
and is at most `max_flows`. -/
theorem C1_flow_count_invariant (table_size max_flows : Nat) (hmax : max_flows < 2 ^ 64)
    (ops : List Op) (n : Nat) :
    (run (FlowTable.create table_size max_flows) (ops.take n)).flow_count_
        = (run (FlowTable.create table_size max_flows) (ops.take n)).flows_.length
      ∧ (run (FlowTable.create table_size max_flows) (ops.take n)).flow_count_ ≤ max_flows := by
  have hinv := Inv_run (ops.take n) _ (Inv_create table_size max_flows hmax)
  have hm := max_flows_run (ops.take n) (FlowTable.create table_size max_flows)
  obtain ⟨h1, h2, _⟩ := hinv
  refine ⟨h1, ?_⟩
  rw [h1]
  rw [hm] at h2
  exact h2

/-- Witness of C1: the sample sequence on a table with `max_flows = 2`. -/
theorem C1_flow_count_invariant_witness :
    (2 : Nat) < 2 ^ 64
      ∧ ((run (FlowTable.create 65536 2) (sampleOps.take 3)).flow_count_
          = (run (FlowTable.create 65536 2) (sampleOps.take 3)).flows_.length
        ∧ (run (FlowTable.create 65536 2) (sampleOps.take 3)).flow_count_ ≤ 2) :=
  ⟨by norm_num, C1_flow_count_invariant 65536 2 (by norm_num) sampleOps 3⟩

/-- C2: when the table holds `max_flows_` entries (or more) and the key is not
stored, `LookupOrCreate` returns no entry with `created = false`, and the map,
`flow_count_` and `total_insertions_` are what they were before the call:
nothing is evicted. -/
theorem C2_full_table_insert_fails (t : FlowTable) (key : FlowKey) (ts : Nat)
    (hfull : t.max_flows_ ≤ t.flows_.length) (habs : key ∉ t.keys) :
    (t.LookupOrCreate key ts).1 = (none, false)
      ∧ (t.LookupOrCreate key ts).2.flows_ = t.flows_
      ∧ (t.LookupOrCreate key ts).2.flow_count_ = t.flow_count_
      ∧ (t.LookupOrCreate key ts).2.total_insertions_ = t.total_insertions_ := by
  have hf : FlowTable.find t.flows_ key = none := find_eq_none_of_not_mem t.flows_ key habs
  have hge : t.flows_.length ≥ t.max_flows_ := hfull
  simp only [FlowTable.LookupOrCreate, hf, hge, if_true, and_self]

/-- Witness of C2: scenario S4, a third flow C offered to the full table of A and B. -/
theorem C2_full_table_insert_fails_witness :
    tableAB.max_flows_ ≤ tableAB.flows_.length ∧ keyC ∉ tableAB.keys
      ∧ ((tableAB.LookupOrCreate keyC 12).1 = (none, false)
        ∧ (tableAB.LookupOrCreate keyC 12).2.flows_ = tableAB.flows_
        ∧ (tableAB.LookupOrCreate keyC 12).2.flow_count_ = tableAB.flow_count_
        ∧ (tableAB.LookupOrCreate keyC 12).2.total_insertions_ = tableAB.total_insertions_) :=
  ⟨by decide, by decide, C2_full_table_insert_fails tableAB keyC 12 (by decide) (by decide)⟩

/-- C3: when the map (whose keys are pairwise distinct, as in any
`std::unordered_map`) stores entry `e` under `key`, `LookupOrCreate(key, ts)`
returns that entry with `created = false`, whatever `ts` and however full the
table is; the map (so `e` with its `first_seen_us` and `last_seen_us`, and every
other entry), `flow_count_` and `total_insertions_` are unchanged. -/
theorem C3_existing_entry_returned (t : FlowTable) (key : FlowKey) (e : FlowEntry) (ts : Nat)
    (hnd : t.keys.Nodup) (hmem : (key, e) ∈ t.flows_) :
    (t.LookupOrCreate key ts).1 = (some e, false)
      ∧ (t.LookupOrCreate key ts).2.flows_ = t.flows_
      ∧ (t.LookupOrCreate key ts).2.flow_count_ = t.flow_count_
      ∧ (t.LookupOrCreate key ts).2.total_insertions_ = t.total_insertions_ := by
  have hf : FlowTable.find t.flows_ key = some (key, e) :=
    find_eq_some_of_mem t.flows_ key e hnd hmem
  simp only [FlowTable.LookupOrCreate, hf, and_self]

/-- Witness of C3: flow A, created at time 10 in the full table of A and B, is
looked up again at time 99. -/
theorem C3_existing_entry_returned_witness :
    tableAB.keys.Nodup
      ∧ (keyA, { FlowEntry.ofKey keyA with
            stats := { first_seen_us := 10, last_seen_us := 10 } }) ∈ tableAB.flows_
      ∧ ((tableAB.LookupOrCreate keyA 99).1
            = (some { FlowEntry.ofKey keyA with
                stats := { first_seen_us := 10, last_seen_us := 10 } }, false)
        ∧ (tableAB.LookupOrCreate keyA 99).2.flows_ = tableAB.flows_
        ∧ (tableAB.LookupOrCreate keyA 99).2.flow_count_ = tableAB.flow_count_
        ∧ (tableAB.LookupOrCreate keyA 99).2.total_insertions_ = tableAB.total_insertions_) :=
  ⟨by decide, by decide,
    C3_existing_entry_returned tableAB keyA _ 99 (by decide) (by decide)⟩

/-- C4: when the counting invariant holds, the table has fewer than `max_flows_`
entries and the key is not stored, `LookupOrCreate(key, ts)` returns
`created = true` and an entry with the given key, `first_seen_us = last_seen_us = ts`,
zero packet and byte counters, `tcp_state = CLOSED`, `app_protocol = UNKNOWN`
with confidence 0 and empty payload buffers; `flow_count_` and the size of the
map grow by exactly 1, the map holds the new pair and exactly the pairs it held
before, and every other key is found as before. -/
theorem C4_new_entry_created (t : FlowTable) (key : FlowKey) (ts : Nat)
    (hinv : t.Inv) (hroom : t.flows_.length < t.max_flows_) (habs : key ∉ t.keys) :
    ∃ e : FlowEntry,
      (t.LookupOrCreate key ts).1 = (some e, true)
      ∧ e.key = key
      ∧ e.stats.first_seen_us = ts ∧ e.stats.last_seen_us = ts
      ∧ e.stats.packets_to_server = 0 ∧ e.stats.packets_to_client = 0
      ∧ e.stats.bytes_to_server = 0 ∧ e.stats.bytes_to_client = 0
      ∧ e.stats.tcp_state = TcpState.CLOSED
      ∧ e.stats.app_protocol = AppProtocol.UNKNOWN ∧ e.stats.app_confidence = 0
      ∧ e.payload_to_server = [] ∧ e.payload_to_client = []
      ∧ (t.LookupOrCreate key ts).2.flow_count_ = t.flow_count_ + 1
      ∧ (t.LookupOrCreate key ts).2.flows_.length = t.flows_.length + 1
      ∧ (∀ p, p ∈ (t.LookupOrCreate key ts).2.flows_ ↔ p = (key, e) ∨ p ∈ t.flows_)
      ∧ (∀ k, k ≠ key →
          FlowTable.find (t.LookupOrCreate key ts).2.flows_ k = FlowTable.find t.flows_ k) := by
  obtain ⟨h1, h2, h3⟩ := hinv
  have hf : FlowTable.find t.flows_ key = none := find_eq_none_of_not_mem t.flows_ key habs
  have hnf : ¬ (t.flows_.length ≥ t.max_flows_) := by omega
  have hinc : u64_inc t.flow_count_ = t.flow_count_ + 1 := u64_inc_of_lt (by omega)
  refine ⟨{ FlowEntry.ofKey key with stats := { first_seen_us := ts, last_seen_us := ts } }, ?_⟩
  simp only [FlowTable.LookupOrCreate, hf, hnf, if_false, hinc, List.length_cons,
    List.mem_cons, FlowEntry.ofKey, true_and, and_true, implies_true]
  intro k hk
  unfold FlowTable.find
  rw [List.find?_cons_of_neg]
  simpa using fun h => hk h.symm

/-- Witness of C4: flow B offered at time 11 to the table that holds only flow A. -/
theorem C4_new_entry_created_witness :
    tableA.Inv ∧ tableA.flows_.length < tableA.max_flows_ ∧ keyB ∉ tableA.keys
      ∧ ∃ e : FlowEntry,
        (tableA.LookupOrCreate keyB 11).1 = (some e, true)
        ∧ e.key = keyB
        ∧ e.stats.first_seen_us = 11 ∧ e.stats.last_seen_us = 11
        ∧ e.stats.packets_to_server = 0 ∧ e.stats.packets_to_client = 0
        ∧ e.stats.bytes_to_server = 0 ∧ e.stats.bytes_to_client = 0
        ∧ e.stats.tcp_state = TcpState.CLOSED
        ∧ e.stats.app_protocol = AppProtocol.UNKNOWN ∧ e.stats.app_confidence = 0
        ∧ e.payload_to_server = [] ∧ e.payload_to_client = []
        ∧ (tableA.LookupOrCreate keyB 11).2.flow_count_ = tableA.flow_count_ + 1
        ∧ (tableA.LookupOrCreate keyB 11).2.flows_.length = tableA.flows_.length + 1
        ∧ (∀ p, p ∈ (tableA.LookupOrCreate keyB 11).2.flows_ ↔ p = (keyB, e) ∨ p ∈ tableA.flows_)
        ∧ (∀ k, k ≠ keyB →
            FlowTable.find (tableA.LookupOrCreate keyB 11).2.flows_ k
              = FlowTable.find tableA.flows_ k) :=
  ⟨⟨by decide, by decide, by norm_num [tableA, run, step, FlowTable.LookupOrCreate,
      FlowTable.create, FlowTable.find]⟩, by decide, by decide,
    C4_new_entry_created tableA keyB 11
      ⟨by decide, by decide, by norm_num [tableA, run, step, FlowTable.LookupOrCreate,
        FlowTable.create, FlowTable.find]⟩ (by decide) (by decide)⟩

/-- C5: after `CleanupExpired(now, T)`, with `now` a `uint64_t` value, no entry
left in the table has `now - last_seen_us > T`, whether the difference is the
unsigned 64-bit one the code computes or the difference of the two numbers as
integers. -/
theorem C5_no_expired_entry_remains (t : FlowTable) (now T : Nat) (hnow : now < 2 ^ 64) :
    ∀ p ∈ (t.CleanupExpired now T).2.flows_,
      ¬ (u64_sub now p.2.stats.last_seen_us > T)
        ∧ ¬ ((now : Int) - (p.2.stats.last_seen_us : Int) > (T : Int)) := by
  intro p hp
  rw [CleanupExpired_flows, List.mem_filter] at hp
  have hne : ¬ (u64_sub now p.2.stats.last_seen_us > T) := by
    simpa [expired] using hp.2
  refine ⟨hne, ?_⟩
  intro hgt
  have hle : p.2.stats.last_seen_us ≤ now := by omega
  rw [u64_sub_of_le hle hnow] at hne
  omega

/-- Witness of C5: cleanup at 400000000 with timeout 300000000 of the table with
an old flow (removed) and a recent flow (kept). -/
theorem C5_no_expired_entry_remains_witness :
    (400000000 : Nat) < 2 ^ 64
      ∧ ∀ p ∈ (tableOldNew.CleanupExpired 400000000 300000000).2.flows_,
        ¬ (u64_sub 400000000 p.2.stats.last_seen_us > 300000000)
          ∧ ¬ (((400000000 : Nat) : Int) - (p.2.stats.last_seen_us : Int)
                > ((300000000 : Nat) : Int)) :=
  ⟨by norm_num, C5_no_expired_entry_remains tableOldNew 400000000 300000000 (by norm_num)⟩

/-- C6 (the code at the failing input): flow A is stored with `last_seen_us = 10`;
`CleanupExpired(5, 300000000)`, a call whose `now` is earlier than `last_seen_us`,
computes `5 - 10` as the unsigned word `2 ^ 64 - 5`, finds it greater than the
timeout, erases the entry and returns 1: the entry is not retained. -/
theorem C6_clock_regression_entry_erased :
    tableA.flows_
        = [(keyA, { FlowEntry.ofKey keyA with
              stats := { first_seen_us := 10, last_seen_us := 10 } })]
      ∧ u64_sub 5 10 = 2 ^ 64 - 5
      ∧ (tableA.CleanupExpired 5 300000000).1 = 1
      ∧ (tableA.CleanupExpired 5 300000000).2.flows_ = []
      ∧ (tableA.CleanupExpired 5 300000000).2.flow_count_ = 0 := by
  refine ⟨by decide, by decide, by decide, by decide, by decide⟩

/-- C7: under the counting invariant, with `now` a `uint64_t` value and
`last_seen_us ≤ now` for every stored entry, `CleanupExpired(now, T)` keeps
exactly the pairs with `now - last_seen_us ≤ T`, unchanged and in order (so a
pair with `now - last_seen_us = T` stays and the pairs with
`now - last_seen_us > T` are the ones removed), returns the number of pairs
with `now - last_seen_us > T`, which is the number by which the map shrinks,
and lowers `flow_count_` by that number. In scenario S3 (one flow created at
0, cleanup at 400000000 with timeout 300000000) the map is left empty with
`flow_count_ = 0`. -/
theorem C7_cleanup_removes_exactly_expired (t : FlowTable) (now T : Nat)
    (hinv : t.Inv) (hnow : now < 2 ^ 64)
    (hmono : ∀ p ∈ t.flows_, p.2.stats.last_seen_us ≤ now) :
    (t.CleanupExpired now T).2.flows_
        = t.flows_.filter (fun p => decide (now - p.2.stats.last_seen_us ≤ T))
      ∧ (∀ p ∈ t.flows_, now - p.2.stats.last_seen_us = T →
          p ∈ (t.CleanupExpired now T).2.flows_)
      ∧ (t.CleanupExpired now T).1
          = (t.flows_.filter (fun p => decide (now - p.2.stats.last_seen_us > T))).length
      ∧ (t.CleanupExpired now T).1 + (t.CleanupExpired now T).2.flows_.length
          = t.flows_.length
      ∧ (t.CleanupExpired now T).2.flow_count_ + (t.CleanupExpired now T).1 = t.flow_count_
      ∧ (((run (FlowTable.create 65536 100000) [Op.LookupOrCreate keyA 0]).CleanupExpired
            400000000 300000000).2.flows_ = []
        ∧ ((run (FlowTable.create 65536 100000) [Op.LookupOrCreate keyA 0]).CleanupExpired
            400000000 300000000).2.flow_count_ = 0) := by
  obtain ⟨h1, h2, h3⟩ := hinv
  have hlen := length_filter_not_expired now T t.flows_
  have hkeep : t.flows_.filter (fun p => !expired now T p)
      = t.flows_.filter (fun p => decide (now - p.2.stats.last_seen_us ≤ T)) := by
    apply List.filter_congr
    intro p hp
    rw [expired_eq_of_le now T p hnow (hmono p hp)]
    by_cases h : now - p.2.stats.last_seen_us ≤ T
    · have h' : ¬ (now - p.2.stats.last_seen_us > T) := by omega
      simp [h, h']
    · have h' : now - p.2.stats.last_seen_us > T := by omega
      simp [h, h']
  have hcnt : t.flows_.countP (expired now T)
      = (t.flows_.filter (fun p => decide (now - p.2.stats.last_seen_us > T))).length := by
    rw [List.countP_eq_length_filter]
    congr 1
    apply List.filter_congr
    intro p hp
    exact expired_eq_of_le now T p hnow (hmono p hp)
  have hflows := CleanupExpired_flows t now T
  have hret : (t.CleanupExpired now T).1 = t.flows_.countP (expired now T) := by
    show (FlowTable.CleanupExpired_loop now T t.flows_ 0 t.flow_count_).2.1 = _
    rw [CleanupExpired_loop_removed now T t.flows_ 0 t.flow_count_ (by omega)]
    omega
  have hfc : (t.CleanupExpired now T).2.flow_count_
      = t.flow_count_ - t.flows_.countP (expired now T) := by
    show (FlowTable.CleanupExpired_loop now T t.flows_ 0 t.flow_count_).2.2 = _
    exact CleanupExpired_loop_count now T t.flows_ 0 t.flow_count_ (by omega) (by omega)
  refine ⟨?_, ?_, ?_, ?_, ?_, by decide, by decide⟩
  · rw [hflows, hkeep]
  · intro p hp hT
    rw [hflows, hkeep, List.mem_filter]
    exact ⟨hp, by simp [hT]⟩
  · rw [hret, hcnt]
  · rw [hret, hflows]
    omega
  · rw [hret, hfc]
    omega

/-- Witness of C7: cleanup at 400000000 with timeout 300000000 of the table with
flow A last seen at 0 and flow B last seen at 200000000. -/
theorem C7_cleanup_removes_exactly_expired_witness :
    tableOldNew.Inv ∧ (400000000 : Nat) < 2 ^ 64
      ∧ (∀ p ∈ tableOldNew.flows_, p.2.stats.last_seen_us ≤ 400000000)
      ∧ ((tableOldNew.CleanupExpired 400000000 300000000).2.flows_
          = tableOldNew.flows_.filter
              (fun p => decide (400000000 - p.2.stats.last_seen_us ≤ 300000000))
        ∧ (∀ p ∈ tableOldNew.flows_, 400000000 - p.2.stats.last_seen_us = 300000000 →
            p ∈ (tableOldNew.CleanupExpired 400000000 300000000).2.flows_)
        ∧ (tableOldNew.CleanupExpired 400000000 300000000).1
            = (tableOldNew.flows_.filter
                (fun p => decide (400000000 - p.2.stats.last_seen_us > 300000000))).length
        ∧ (tableOldNew.CleanupExpired 400000000 300000000).1
              + (tableOldNew.CleanupExpired 400000000 300000000).2.flows_.length
            = tableOldNew.flows_.length
        ∧ (tableOldNew.CleanupExpired 400000000 300000000).2.flow_count_
              + (tableOldNew.CleanupExpired 400000000 300000000).1
            = tableOldNew.flow_count_
        ∧ (((run (FlowTable.create 65536 100000) [Op.LookupOrCreate keyA 0]).CleanupExpired
              400000000 300000000).2.flows_ = []
          ∧ ((run (FlowTable.create 65536 100000) [Op.LookupOrCreate keyA 0]).CleanupExpired
              400000000 300000000).2.flow_count_ = 0)) :=
  ⟨Inv_run _ _ (Inv_create 65536 100000 (by norm_num)), by norm_num, by decide,
    C7_cleanup_removes_exactly_expired tableOldNew 400000000 300000000
      (Inv_run _ _ (Inv_create 65536 100000 (by norm_num))) (by norm_num) (by decide)⟩

/-- C8: `Clear()` leaves the map empty (so `GetAllFlows` returns nothing) and
`flow_count_ = 0`, and leaves `total_lookups_`, `total_insertions_` and
`max_flows_` as they were. -/
theorem C8_clear_keeps_cumulative_counters (t : FlowTable) :
    t.Clear.flows_ = [] ∧ t.Clear.GetAllFlows.1 = [] ∧ t.Clear.flow_count_ = 0
      ∧ t.Clear.GetFlowCount = 0
      ∧ t.Clear.total_lookups_ = t.total_lookups_
      ∧ t.Clear.total_insertions_ = t.total_insertions_
      ∧ t.Clear.max_flows_ = t.max_flows_ := by
  refine ⟨rfl, rfl, rfl, rfl, rfl, rfl, rfl⟩

/-- The two cumulative counters after one call, as 64-bit words: `total_lookups_`
becomes `(total_lookups_ + 1) mod 2 ^ 64` on every `LookupOrCreate` and `Lookup`
call; `total_insertions_` becomes `(total_insertions_ + 1) mod 2 ^ 64` on a
`LookupOrCreate` call that inserts and is unchanged by every other call. -/
theorem counters_after_call (t : FlowTable) (key : FlowKey) (ts now T : Nat) :
    (t.LookupOrCreate key ts).2.total_lookups_ = (t.total_lookups_ + 1) % 2 ^ 64
      ∧ (t.Lookup key).2.total_lookups_ = (t.total_lookups_ + 1) % 2 ^ 64
      ∧ (t.total_lookups_ + 1 < 2 ^ 64 →
          (t.LookupOrCreate key ts).2.total_lookups_ = t.total_lookups_ + 1
          ∧ (t.Lookup key).2.total_lookups_ = t.total_lookups_ + 1)
      ∧ ((t.LookupOrCreate key ts).1.2 = true →
          (t.LookupOrCreate key ts).2.total_insertions_ = (t.total_insertions_ + 1) % 2 ^ 64
          ∧ (t.total_insertions_ + 1 < 2 ^ 64 →
              (t.LookupOrCreate key ts).2.total_insertions_ = t.total_insertions_ + 1)
          ∧ (t.LookupOrCreate key ts).2.flows_.length = t.flows_.length + 1)
      ∧ ((t.LookupOrCreate key ts).1.2 = false →
          (t.LookupOrCreate key ts).2.total_insertions_ = t.total_insertions_
          ∧ (t.LookupOrCreate key ts).2.flows_ = t.flows_)
      ∧ (t.Lookup key).2.total_insertions_ = t.total_insertions_
      ∧ (t.CleanupExpired now T).2.total_insertions_ = t.total_insertions_
      ∧ t.Clear.total_insertions_ = t.total_insertions_
      ∧ t.GetAllFlows.2.total_insertions_ = t.total_insertions_ := by
  have hL : (t.Lookup key).2.total_lookups_ = (t.total_lookups_ + 1) % 2 ^ 64 :=
    Lookup_total_lookups t key
  have hLins : (t.Lookup key).2.total_insertions_ = t.total_insertions_ := by
    unfold FlowTable.Lookup
    simp only
    cases hf : FlowTable.find t.flows_ key with
    | some p => rfl
    | none => rfl
  cases hf : FlowTable.find t.flows_ key with
  | some p =>
    have hres := LookupOrCreate_found t key ts p hf
    refine ⟨by rw [hres]; rfl, hL, ?_, ?_, ?_, hLins, rfl, rfl, rfl⟩
    · intro hlt
      rw [hL, hres, Nat.mod_eq_of_lt hlt]
      exact ⟨Nat.mod_eq_of_lt hlt, rfl⟩
    · rw [hres]
      intro h
      cases h
    · rw [hres]
      intro _
      exact ⟨rfl, rfl⟩
  | none =>
    by_cases hfull : t.flows_.length ≥ t.max_flows_
    · have hres := LookupOrCreate_full t key ts hf hfull
      refine ⟨by rw [hres]; rfl, hL, ?_, ?_, ?_, hLins, rfl, rfl, rfl⟩
      · intro hlt
        rw [hL, hres, Nat.mod_eq_of_lt hlt]
        exact ⟨Nat.mod_eq_of_lt hlt, rfl⟩
      · rw [hres]
        intro h
        cases h
      · rw [hres]
        intro _
        exact ⟨rfl, rfl⟩
    · have hres := LookupOrCreate_insert t key ts hf hfull
      refine ⟨by rw [hres]; rfl, hL, ?_, ?_, ?_, hLins, rfl, rfl, rfl⟩
      · intro hlt
        rw [hL, hres, Nat.mod_eq_of_lt hlt]
        exact ⟨Nat.mod_eq_of_lt hlt, rfl⟩
      · rw [hres]
        intro _
        exact ⟨rfl, fun hlt => Nat.mod_eq_of_lt hlt, rfl⟩
      · rw [hres]
        intro h
        cases h

/-- C9: while the two counters are below the largest `uint64_t` value, so that no
`++` wraps, `total_lookups_` increases by exactly 1 on every `LookupOrCreate`
call, whatever its outcome, and on every `Lookup` call; `total_insertions_`
increases by exactly 1 on a `LookupOrCreate` call that inserts (it reports
`created = true` and the map gains one pair) and is unchanged by a
`LookupOrCreate` call that does not insert and by `Lookup`, `CleanupExpired`,
`Clear` and `GetAllFlows`. -/
theorem C9_lookup_and_insertion_counters (t : FlowTable) (key : FlowKey) (ts now T : Nat)
    (hl : t.total_lookups_ + 1 < 2 ^ 64) (hi : t.total_insertions_ + 1 < 2 ^ 64) :
    (t.LookupOrCreate key ts).2.total_lookups_ = t.total_lookups_ + 1
      ∧ (t.Lookup key).2.total_lookups_ = t.total_lookups_ + 1
      ∧ ((t.LookupOrCreate key ts).1.2 = true →
          (t.LookupOrCreate key ts).2.total_insertions_ = t.total_insertions_ + 1
          ∧ (t.LookupOrCreate key ts).2.flows_.length = t.flows_.length + 1)
      ∧ ((t.LookupOrCreate key ts).1.2 = false →
          (t.LookupOrCreate key ts).2.total_insertions_ = t.total_insertions_
          ∧ (t.LookupOrCreate key ts).2.flows_ = t.flows_)
      ∧ (t.Lookup key).2.total_insertions_ = t.total_insertions_
      ∧ (t.CleanupExpired now T).2.total_insertions_ = t.total_insertions_
      ∧ t.Clear.total_insertions_ = t.total_insertions_
      ∧ t.GetAllFlows.2.total_insertions_ = t.total_insertions_ := by
  obtain ⟨_, _, g3, g4, g5, g6, g7, g8, g9⟩ := counters_after_call t key ts now T
  obtain ⟨l1, l2⟩ := g3 hl
  refine ⟨l1, l2, ?_, g5, g6, g7, g8, g9⟩
  intro hc
  obtain ⟨_, i2, i3⟩ := g4 hc
  exact ⟨i2 hi, i3⟩

/-- Witness of C9: flow B offered at time 11 to the table that holds only flow A;
the call inserts. -/
theorem C9_lookup_and_insertion_counters_witness :
    tableA.total_lookups_ + 1 < 2 ^ 64 ∧ tableA.total_insertions_ + 1 < 2 ^ 64
      ∧ ((tableA.LookupOrCreate keyB 11).2.total_lookups_ = tableA.total_lookups_ + 1
        ∧ (tableA.Lookup keyB).2.total_lookups_ = tableA.total_lookups_ + 1
        ∧ ((tableA.LookupOrCreate keyB 11).1.2 = true →
            (tableA.LookupOrCreate keyB 11).2.total_insertions_ = tableA.total_insertions_ + 1
            ∧ (tableA.LookupOrCreate keyB 11).2.flows_.length = tableA.flows_.length + 1)
        ∧ ((tableA.LookupOrCreate keyB 11).1.2 = false →
            (tableA.LookupOrCreate keyB 11).2.total_insertions_ = tableA.total_insertions_
            ∧ (tableA.LookupOrCreate keyB 11).2.flows_ = tableA.flows_)
        ∧ (tableA.Lookup keyB).2.total_insertions_ = tableA.total_insertions_
        ∧ (tableA.CleanupExpired 400000000 300000000).2.total_insertions_
            = tableA.total_insertions_
        ∧ tableA.Clear.total_insertions_ = tableA.total_insertions_
        ∧ tableA.GetAllFlows.2.total_insertions_ = tableA.total_insertions_) :=
  ⟨by decide, by decide,
    C9_lookup_and_insertion_counters tableA keyB 11 400000000 300000000
      (by decide) (by decide)⟩

/-- Every table reachable from an empty one, by calls and by writes through
returned entry pointers, has the counting invariant and the map invariant. -/
theorem Reachable_invariants (t : FlowTable) (h : Reachable t) : t.Inv ∧ t.KeysOk := by
  obtain ⟨table_size, max_flows, ops, hmax, rfl⟩ := h
  exact ⟨Inv_run ops _ (Inv_create table_size max_flows hmax),
    KeysOk_run ops _ (KeysOk_create table_size max_flows)⟩

/-- C10: on every table that has the counting invariant and the map invariant, as
every table reachable from an empty one has, also after its entries were
updated through the pointers `LookupOrCreate` and `Lookup` return,
`GetAllFlows()` returns a list whose length is `flow_count_`, whose keys are
pairwise distinct, in which the elements with key `k` are exactly the one entry
stored under `k` for every stored key `k`, and all of whose elements are
stored entries; the call leaves the table as it was. -/
theorem C10_GetAllFlows_snapshot (t : FlowTable) (hinv : t.Inv) (hkeys : t.KeysOk) :
    t.GetAllFlows.1.length = t.flow_count_
      ∧ (t.GetAllFlows.1.map (fun x => x.key)).Nodup
      ∧ (∀ k e, (k, e) ∈ t.flows_ →
          t.GetAllFlows.1.filter (fun x => decide (x.key = k)) = [e])
      ∧ (∀ x ∈ t.GetAllFlows.1, (x.key, x) ∈ t.flows_)
      ∧ t.GetAllFlows.2 = t := by
  obtain ⟨h1, _, _⟩ := hinv
  obtain ⟨hnd, hk⟩ := hkeys
  rw [GetAllFlows_eq]
  refine ⟨?_, ?_, ?_, ?_, rfl⟩
  · rw [List.length_map, h1]
  · have hmap : (t.flows_.map Prod.snd).map (fun x => x.key) = t.flows_.map Prod.fst := by
      rw [List.map_map]
      apply List.map_congr_left
      intro p hp
      exact hk p hp
    rw [hmap]
    exact hnd
  · intro k e hmem
    exact filter_key_of_mem t.flows_ k e hnd hk hmem
  · intro x hx
    rw [List.mem_map] at hx
    obtain ⟨p, hp, hpx⟩ := hx
    have hpk := hk p hp
    rw [← hpx, hpk]
    exact hp

/-- Witness of C10: the table of a running capture, in which flow A was updated by
the handshake of scenario S1 before flow B was inserted. -/
theorem C10_GetAllFlows_snapshot_witness :
    Reachable tableRunning
      ∧ (keyA, { key := keyA, stats := statsHandshake }) ∈ tableRunning.flows_
      ∧ tableRunning.Inv ∧ tableRunning.KeysOk
      ∧ (tableRunning.GetAllFlows.1.length = tableRunning.flow_count_
        ∧ (tableRunning.GetAllFlows.1.map (fun x => x.key)).Nodup
        ∧ (∀ k e, (k, e) ∈ tableRunning.flows_ →
            tableRunning.GetAllFlows.1.filter (fun x => decide (x.key = k)) = [e])
        ∧ (∀ x ∈ tableRunning.GetAllFlows.1, (x.key, x) ∈ tableRunning.flows_)
        ∧ tableRunning.GetAllFlows.2 = tableRunning) :=
  ⟨⟨65536, 100000, _, by norm_num, rfl⟩, by decide,
    (Reachable_invariants tableRunning ⟨65536, 100000, _, by norm_num, rfl⟩).1,
    (Reachable_invariants tableRunning ⟨65536, 100000, _, by norm_num, rfl⟩).2,
    C10_GetAllFlows_snapshot tableRunning
      (Reachable_invariants tableRunning ⟨65536, 100000, _, by norm_num, rfl⟩).1
      (Reachable_invariants tableRunning ⟨65536, 100000, _, by norm_num, rfl⟩).2⟩

/-! ## `Lookup` -/

theorem Lookup_eq (t : FlowTable) (key : FlowKey) :
    t.Lookup key
      = ((FlowTable.find t.flows_ key).map Prod.snd,
          { t with total_lookups_ := u64_inc t.total_lookups_ }) := by
  unfold FlowTable.Lookup
  simp only
  cases hf : FlowTable.find t.flows_ key with
  | some p => rfl
  | none => rfl

theorem find_key_eq (l : List (FlowKey × FlowEntry)) (key : FlowKey) (p : FlowKey × FlowEntry)
    (hf : FlowTable.find l key = some p) : p.1 = key ∧ p ∈ l := by
  unfold FlowTable.find at hf
  have h1 := List.find?_some hf
  exact ⟨of_decide_eq_true h1, List.mem_of_find?_eq_some hf⟩

theorem u64_sub_add_le {a b : Nat} (h : b ≤ a) : u64_sub a b + b ≤ a := by
  unfold u64_sub U64_MOD
  omega

/-- C11: `Lookup` reads what `LookupOrCreate` wrote and changes no entry. When
`LookupOrCreate(key, ts)` returns an entry `e`, that entry is stored under `key`
in the table it leaves and `Lookup(key)` on that table returns `e`; `Lookup` of a
key that is not stored returns no entry; and `Lookup` leaves the map,
`flow_count_`, `max_flows_` and `total_insertions_` as they were. -/
theorem C11_lookup_reads_back (t : FlowTable) (key : FlowKey) (ts : Nat) (e : FlowEntry)
    (hret : (t.LookupOrCreate key ts).1.1 = some e) :
    (key, e) ∈ (t.LookupOrCreate key ts).2.flows_
      ∧ ((t.LookupOrCreate key ts).2.Lookup key).1 = some e
      ∧ (∀ u : FlowTable, ∀ k : FlowKey, k ∉ u.keys → (u.Lookup k).1 = none)
      ∧ (∀ u : FlowTable, ∀ k : FlowKey,
          (u.Lookup k).2.flows_ = u.flows_ ∧ (u.Lookup k).2.flow_count_ = u.flow_count_
          ∧ (u.Lookup k).2.max_flows_ = u.max_flows_
          ∧ (u.Lookup k).2.total_insertions_ = u.total_insertions_) := by
  refine ⟨?_, ?_, ?_, ?_⟩
  · cases hf : FlowTable.find t.flows_ key with
    | some p =>
      rw [LookupOrCreate_found t key ts p hf] at hret ⊢
      obtain ⟨hk, hp⟩ := find_key_eq t.flows_ key p hf
      have he : p.2 = e := Option.some.inj hret
      have hpe : p = (key, e) := by rw [← hk, ← he]
      rw [← hpe]
      exact hp
    | none =>
      by_cases hfull : t.flows_.length ≥ t.max_flows_
      · rw [LookupOrCreate_full t key ts hf hfull] at hret
        cases hret
      · rw [LookupOrCreate_insert t key ts hf hfull] at hret ⊢
        have he := Option.some.inj hret
        rw [← he]
        exact List.mem_cons_self _ _
  · cases hf : FlowTable.find t.flows_ key with
    | some p =>
      rw [LookupOrCreate_found t key ts p hf] at hret ⊢
      rw [Lookup_eq]
      show (FlowTable.find t.flows_ key).map Prod.snd = some e
      rw [hf]
      exact hret
    | none =>
      by_cases hfull : t.flows_.length ≥ t.max_flows_
      · rw [LookupOrCreate_full t key ts hf hfull] at hret
        cases hret
      · rw [LookupOrCreate_insert t key ts hf hfull] at hret ⊢
        rw [Lookup_eq]
        have he := Option.some.inj hret
        rw [← he]
        simp [FlowTable.find]
  · intro u k hk
    rw [Lookup_eq]
    show (FlowTable.find u.flows_ k).map Prod.snd = none
    rw [find_eq_none_of_not_mem u.flows_ k hk]
    rfl
  · intro u k
    rw [Lookup_eq]
    exact ⟨rfl, rfl, rfl, rfl⟩

/-- Witness of C11: flow A looked up at time 99 in the table of A and B, where it
was created at time 10. -/
theorem C11_lookup_reads_back_witness :
    (tableAB.LookupOrCreate keyA 99).1.1
        = some { FlowEntry.ofKey keyA with stats := { first_seen_us := 10, last_seen_us := 10 } }
      ∧ ((keyA, { FlowEntry.ofKey keyA with
              stats := { first_seen_us := 10, last_seen_us := 10 } })
            ∈ (tableAB.LookupOrCreate keyA 99).2.flows_
        ∧ ((tableAB.LookupOrCreate keyA 99).2.Lookup keyA).1
            = some { FlowEntry.ofKey keyA with
                stats := { first_seen_us := 10, last_seen_us := 10 } }
        ∧ (∀ u : FlowTable, ∀ k : FlowKey, k ∉ u.keys → (u.Lookup k).1 = none)
        ∧ (∀ u : FlowTable, ∀ k : FlowKey,
            (u.Lookup k).2.flows_ = u.flows_ ∧ (u.Lookup k).2.flow_count_ = u.flow_count_
            ∧ (u.Lookup k).2.max_flows_ = u.max_flows_
            ∧ (u.Lookup k).2.total_insertions_ = u.total_insertions_)) :=
  ⟨by decide, C11_lookup_reads_back tableAB keyA 99 _ (by decide)⟩

/-- C12: `e.IsToServer(p)` holds exactly when `p.src_ip = e.key.src_ip` and
`p.src_port = e.key.src_port`; so it holds for the key of the flow itself, and it
fails for the key with the two endpoints swapped whenever the source endpoint
`(src_ip, src_port)` of the flow differs from its destination endpoint
`(dst_ip, dst_port)`. -/
theorem C12_IsToServer_direction (e : FlowEntry) (p : FlowKey) :
    (e.IsToServer p = true ↔ (p.src_ip = e.key.src_ip ∧ p.src_port = e.key.src_port))
      ∧ e.IsToServer e.key = true
      ∧ ((e.key.src_ip, e.key.src_port) ≠ (e.key.dst_ip, e.key.dst_port) →
          e.IsToServer e.key.swapped = false) := by
  refine ⟨?_, ?_, ?_⟩
  · simp [FlowEntry.IsToServer]
  · simp [FlowEntry.IsToServer]
  · intro hne
    cases h : e.IsToServer e.key.swapped with
    | false => rfl
    | true =>
      exfalso
      apply hne
      simp only [FlowEntry.IsToServer, FlowKey.swapped, Bool.and_eq_true,
        decide_eq_true_eq] at h
      rw [h.1, h.2]

/-- C13: when both payload buffers hold at most `payload_max_size` bytes, they
still do after `AppendPayload(data, len, to_server)`, for every `data` (null or
not), every `len` and either direction; the cap itself is not changed. -/
theorem C13_payload_buffers_capped (e : FlowEntry) (data : Option (Nat → Nat)) (len : Nat)
    (to_server : Bool)
    (hs : e.payload_to_server.length ≤ e.payload_max_size)
    (hc : e.payload_to_client.length ≤ e.payload_max_size) :
    (e.AppendPayload data len to_server).payload_to_server.length
        ≤ (e.AppendPayload data len to_server).payload_max_size
      ∧ (e.AppendPayload data len to_server).payload_to_client.length
        ≤ (e.AppendPayload data len to_server).payload_max_size
      ∧ (e.AppendPayload data len to_server).payload_max_size = e.payload_max_size := by
  cases data with
  | none => exact ⟨hs, hc, rfl⟩
  | some mem =>
    unfold FlowEntry.AppendPayload
    simp only
    by_cases hg : (!e.payload_collection_enabled || len == 0) = true
    · rw [if_pos hg]
      exact ⟨hs, hc, rfl⟩
    · rw [if_neg hg]
      cases to_server with
      | true =>
        have hb := u64_sub_add_le hs
        by_cases hpos : min len (u64_sub e.payload_max_size e.payload_to_server.length) > 0
        · simp only [if_true, hpos]
          refine ⟨?_, hc, trivial⟩
          simp only [List.length_append, List.length_map, List.length_range]
          omega
        · simp only [if_true, hpos, if_false]
          exact ⟨hs, hc, trivial⟩
      | false =>
        have hb := u64_sub_add_le hc
        by_cases hpos : min len (u64_sub e.payload_max_size e.payload_to_client.length) > 0
        · simp only [Bool.false_eq_true, if_false, hpos, if_true]
          refine ⟨hs, ?_, trivial⟩
          simp only [List.length_append, List.length_map, List.length_range]
          omega
        · simp only [Bool.false_eq_true, if_false, hpos]
          exact ⟨hs, hc, trivial⟩

/-- Witness of C13: five bytes offered to a to-server buffer that holds 3 of at
most 4 bytes. -/
theorem C13_payload_buffers_capped_witness :
    entryPayload.payload_to_server.length ≤ entryPayload.payload_max_size
      ∧ entryPayload.payload_to_client.length ≤ entryPayload.payload_max_size
      ∧ ((entryPayload.AppendPayload (some (fun i => 100 + i)) 5 true).payload_to_server.length
            ≤ (entryPayload.AppendPayload (some (fun i => 100 + i)) 5 true).payload_max_size
        ∧ (entryPayload.AppendPayload (some (fun i => 100 + i)) 5 true).payload_to_client.length
            ≤ (entryPayload.AppendPayload (some (fun i => 100 + i)) 5 true).payload_max_size
        ∧ (entryPayload.AppendPayload (some (fun i => 100 + i)) 5 true).payload_max_size
            = entryPayload.payload_max_size) :=
  ⟨by decide, by decide,
    C13_payload_buffers_capped entryPayload (some (fun i => 100 + i)) 5 true
      (by decide) (by decide)⟩

/-! ## Histograms -/

theorem hist_count_inc_same (h : List (Nat × Nat)) (k : Nat) :
    hist_count (hist_inc h k) k = u64_inc (hist_count h k) := by
  induction h with
  | nil => simp [hist_inc, hist_count]
  | cons p rest ih =>
    by_cases hp : p.1 = k
    · simp [hist_inc, hist_count, hp]
    · have e1 : hist_count (p :: hist_inc rest k) k = hist_count (hist_inc rest k) k := by
        simp [hist_count, hp]
      have e2 : hist_count (p :: rest) k = hist_count rest k := by
        simp [hist_count, hp]
      simp only [hist_inc, hp, if_false]
      rw [e1, e2, ih]

theorem hist_count_inc_other (h : List (Nat × Nat)) (k k' : Nat) (hne : k' ≠ k) :
    hist_count (hist_inc h k) k' = hist_count h k' := by
  induction h with
  | nil => simp [hist_inc, hist_count, hne.symm]
  | cons p rest ih =>
    by_cases hp : p.1 = k
    · have hpk : ¬ (p.1 = k') := fun h' => hne (h'.symm.trans hp)
      simp [hist_inc, hist_count, hp, hpk, hne.symm]
    · simp only [hist_inc, hp, if_false]
      by_cases hpk : p.1 = k'
      · simp [hist_count, hpk]
      · have e1 : hist_count (p :: hist_inc rest k) k' = hist_count (hist_inc rest k) k' := by
          simp [hist_count, hpk]
        have e2 : hist_count (p :: rest) k' = hist_count rest k' := by
          simp [hist_count, hpk]
        rw [e1, e2, ih]

theorem keys_hist_inc (h : List (Nat × Nat)) (k x : Nat) :
    x ∈ (hist_inc h k).map Prod.fst ↔ x = k ∨ x ∈ h.map Prod.fst := by
  induction h with
  | nil => simp [hist_inc]
  | cons p rest ih =>
    by_cases hp : p.1 = k
    · simp only [hist_inc, hp, if_true, List.map_cons, List.mem_cons]
      constructor
      · rintro (h1 | h1)
        · exact Or.inl h1
        · exact Or.inr (Or.inr h1)
      · rintro (h1 | h1 | h1)
        · exact Or.inl h1
        · exact Or.inl h1
        · exact Or.inr h1
    · simp only [hist_inc, hp, if_false, List.map_cons, List.mem_cons, ih]
      constructor
      · rintro (h1 | h1 | h1)
        · exact Or.inr (Or.inl h1)
        · exact Or.inl h1
        · exact Or.inr (Or.inr h1)
      · rintro (h1 | h1 | h1)
        · exact Or.inr (Or.inl h1)
        · exact Or.inl h1
        · exact Or.inr (Or.inr h1)

theorem hist_sum_cons (p : Nat × Nat) (rest : List (Nat × Nat)) :
    hist_sum (p :: rest) = p.2 + hist_sum rest := by
  simp [hist_sum]

theorem hist_sum_inc_mod (h : List (Nat × Nat)) (k : Nat) :
    hist_sum (hist_inc h k) % 2 ^ 64 = (hist_sum h + 1) % 2 ^ 64 := by
  induction h with
  | nil => simp [hist_inc, hist_sum, u64_inc, U64_MOD]
  | cons p rest ih =>
    by_cases hp : p.1 = k
    · simp only [hist_inc, hp, if_true, hist_sum_cons, u64_inc, U64_MOD]
      omega
    · simp only [hist_inc, hp, if_false, hist_sum_cons]
      omega

theorem hist_sum_inc_of_lt (h : List (Nat × Nat)) (k : Nat)
    (hlt : ∀ p ∈ h, p.2 + 1 < 2 ^ 64) : hist_sum (hist_inc h k) = hist_sum h + 1 := by
  induction h with
  | nil => simp [hist_inc, hist_sum, u64_inc, U64_MOD]
  | cons p rest ih =>
    by_cases hp : p.1 = k
    · have h1 := hlt p (List.mem_cons_self p rest)
      simp only [hist_inc, hp, if_true, hist_sum_cons]
      rw [u64_inc_of_lt h1]
      omega
    · have h2 := ih (fun q hq => hlt q (List.mem_cons_of_mem p hq))
      simp only [hist_inc, hp, if_false, hist_sum_cons]
      omega

theorem le_hist_sum (h : List (Nat × Nat)) : ∀ p ∈ h, p.2 ≤ hist_sum h := by
  induction h with
  | nil => intro p hp; cases hp
  | cons q rest ih =>
    intro p hp
    rw [hist_sum_cons]
    rcases List.mem_cons.mp hp with heq | htail
    · rw [heq]
      omega
    · have := ih p htail
      omega

/-! ## The packet path of `StatisticsExports.cpp` -/

theorem tracker_after_init {σ : Type} (api : FlowTrackerApi σ) (s : StatsState σ) :
    (InitFlowTracker api s).g_flowTracker = some (trackerOf api s) := by
  unfold InitFlowTracker trackerOf
  cases h : s.g_flowTracker with
  | some tr => simp [h]
  | none => simp

theorem ProcessPacketForStats_disabled {σ : Type} (api : FlowTrackerApi σ) (s : StatsState σ)
    (data : List Nat) (len ts : Nat) (hoff : s.g_nativeStatsEnabled = false) :
    ProcessPacketForStats api s data len ts = s := by
  simp [ProcessPacketForStats, hoff]

theorem InitFlowTracker_fields {σ : Type} (api : FlowTrackerApi σ) (s : StatsState σ) :
    (InitFlowTracker api s).g_nativeStatsEnabled = s.g_nativeStatsEnabled
      ∧ (InitFlowTracker api s).g_sourceIPCounts = s.g_sourceIPCounts
      ∧ (InitFlowTracker api s).g_destIPCounts = s.g_destIPCounts
      ∧ (InitFlowTracker api s).g_portCounts = s.g_portCounts := by
  unfold InitFlowTracker
  cases h : s.g_flowTracker with
  | some tr => exact ⟨rfl, rfl, rfl, rfl⟩
  | none => exact ⟨rfl, rfl, rfl, rfl⟩

theorem ProcessPacketForStats_none {σ : Type} (api : FlowTrackerApi σ) (s : StatsState σ)
    (data : List Nat) (len ts : Nat) (hon : s.g_nativeStatsEnabled = true)
    (hret : trackerReturn api s data len ts = none) :
    (ProcessPacketForStats api s data len ts).g_nativeStatsEnabled = true
      ∧ (ProcessPacketForStats api s data len ts).g_sourceIPCounts = s.g_sourceIPCounts
      ∧ (ProcessPacketForStats api s data len ts).g_destIPCounts = s.g_destIPCounts
      ∧ (ProcessPacketForStats api s data len ts).g_portCounts = s.g_portCounts := by
  obtain ⟨f1, f2, f3, f4⟩ := InitFlowTracker_fields api s
  have ht := tracker_after_init api s
  unfold trackerReturn at hret
  unfold ProcessPacketForStats
  simp only [hon, Bool.not_true, Bool.false_eq_true, if_false, ht, hret]
  exact ⟨f1.trans hon, f2, f3, f4⟩

theorem ProcessPacketForStats_some {σ : Type} (api : FlowTrackerApi σ) (s : StatsState σ)
    (data : List Nat) (len ts : Nat) (e : FlowEntry) (hon : s.g_nativeStatsEnabled = true)
    (hret : trackerReturn api s data len ts = some e) :
    (ProcessPacketForStats api s data len ts).g_nativeStatsEnabled = true
      ∧ (ProcessPacketForStats api s data len ts).g_sourceIPCounts
          = hist_inc s.g_sourceIPCounts e.key.src_ip
      ∧ (ProcessPacketForStats api s data len ts).g_destIPCounts
          = hist_inc s.g_destIPCounts e.key.dst_ip
      ∧ (ProcessPacketForStats api s data len ts).g_portCounts
          = (if e.key.dst_port > 0 then
              hist_inc (if e.key.src_port > 0 then hist_inc s.g_portCounts e.key.src_port
                else s.g_portCounts) e.key.dst_port
            else (if e.key.src_port > 0 then hist_inc s.g_portCounts e.key.src_port
              else s.g_portCounts)) := by
  obtain ⟨f1, f2, f3, f4⟩ := InitFlowTracker_fields api s
  have ht := tracker_after_init api s
  unfold trackerReturn at hret
  unfold ProcessPacketForStats
  simp only [hon, Bool.not_true, Bool.false_eq_true, if_false, ht, hret, f2, f3, f4]
  exact ⟨f1.trans hon, trivial, trivial, trivial⟩

theorem ports_after_packet {σ : Type} (api : FlowTrackerApi σ) (s : StatsState σ)
    (data : List Nat) (len ts : Nat)
    (h0 : 0 ∉ s.g_portCounts.map Prod.fst) :
    0 ∉ (ProcessPacketForStats api s data len ts).g_portCounts.map Prod.fst := by
  cases hon : s.g_nativeStatsEnabled with
  | false => rw [ProcessPacketForStats_disabled api s data len ts hon]; exact h0
  | true =>
    cases hret : trackerReturn api s data len ts with
    | none => rw [(ProcessPacketForStats_none api s data len ts hon hret).2.2.2]; exact h0
    | some e =>
      rw [(ProcessPacketForStats_some api s data len ts e hon hret).2.2.2]
      have h1 : 0 ∉ (if e.key.src_port > 0 then hist_inc s.g_portCounts e.key.src_port
          else s.g_portCounts).map Prod.fst := by
        by_cases hs : e.key.src_port > 0
        · rw [if_pos hs, keys_hist_inc]
          rintro (h | h)
          · omega
          · exact h0 h
        · rw [if_neg hs]
          exact h0
      by_cases hd : e.key.dst_port > 0
      · rw [if_pos hd, keys_hist_inc]
        rintro (h | h)
        · omega
        · exact h1 h
      · rw [if_neg hd]
        exact h1

theorem ports_after_step {σ : Type} (api : FlowTrackerApi σ) (sn : StatsState σ × Nat)
    (op : StatsOp) (h0 : 0 ∉ sn.1.g_portCounts.map Prod.fst) :
    0 ∉ (statsStep api sn op).1.g_portCounts.map Prod.fst := by
  cases op with
  | ProcessPacketForStats data len ts => exact ports_after_packet api sn.1 data len ts h0
  | ClearStatistics => simp [statsStep, Sniffer_ClearStatistics]
  | EnableNativeStats enable =>
    cases enable with
    | false => exact h0
    | true =>
      show 0 ∉ (InitFlowTracker api _).g_portCounts.map Prod.fst
      rw [(InitFlowTracker_fields api _).2.2.2]
      exact h0

theorem ports_after_run {σ : Type} (api : FlowTrackerApi σ) (ops : List StatsOp) :
    ∀ sn : StatsState σ × Nat, 0 ∉ sn.1.g_portCounts.map Prod.fst →
      0 ∉ (statsRun api sn ops).1.g_portCounts.map Prod.fst := by
  induction ops with
  | nil => intro sn h; exact h
  | cons op rest ih => intro sn h; exact ih (statsStep api sn op) (ports_after_step api sn op h)

/-- C16: for every tracker and every sequence of `ProcessPacketForStats`,
`Sniffer_ClearStatistics` and `Sniffer_EnableNativeStats` calls from the initial
state, the port histogram does not contain the key 0; and in any state, a
packet for which the tracker returns an entry whose key has `src_port = 0` and
`dst_port = 0` leaves the port histogram as it was. -/
theorem C16_port_zero_not_recorded {σ : Type} (api : FlowTrackerApi σ) (ops : List StatsOp) :
    0 ∉ (statsRun api (StatsState.initial σ, 0) ops).1.g_portCounts.map Prod.fst
      ∧ (∀ (s : StatsState σ) (data : List Nat) (len ts : Nat) (e : FlowEntry),
          trackerReturn api s data len ts = some e →
          e.key.src_port = 0 → e.key.dst_port = 0 →
          (ProcessPacketForStats api s data len ts).g_portCounts = s.g_portCounts) := by
  refine ⟨ports_after_run api ops _ (by simp [StatsState.initial]), ?_⟩
  intro s data len ts e hret hs hd
  cases hon : s.g_nativeStatsEnabled with
  | false => rw [ProcessPacketForStats_disabled api s data len ts hon]
  | true =>
    rw [(ProcessPacketForStats_some api s data len ts e hon hret).2.2.2, hs, hd]
    simp

/-- C18: while `g_nativeStatsEnabled` is false, `ProcessPacketForStats` returns at
once for every input: the whole state is unchanged, so the tracker is neither
created nor called and the three histograms are as before. The flag is false
in the initial state and after `Sniffer_EnableNativeStats(false)`. -/
theorem C18_disabled_is_noop {σ : Type} (api : FlowTrackerApi σ) (s : StatsState σ)
    (data : List Nat) (len ts : Nat) (hoff : s.g_nativeStatsEnabled = false) :
    ProcessPacketForStats api s data len ts = s
      ∧ (StatsState.initial σ).g_nativeStatsEnabled = false
      ∧ (∀ s0 : StatsState σ, (Sniffer_EnableNativeStats api s0 false).g_nativeStatsEnabled = false)
      ∧ (∀ s0 : StatsState σ,
          ProcessPacketForStats api (Sniffer_EnableNativeStats api s0 false) data len ts
            = Sniffer_EnableNativeStats api s0 false) := by
  refine ⟨ProcessPacketForStats_disabled api s data len ts hoff, rfl, fun s0 => rfl, ?_⟩
  intro s0
  exact ProcessPacketForStats_disabled api _ data len ts rfl

/-- Witness of C18: a frame of flow A offered to the initial state of the stand-in
tracker. -/
theorem C18_disabled_is_noop_witness :
    (StatsState.initial Unit).g_nativeStatsEnabled = false
      ∧ (ProcessPacketForStats echoTracker (StatsState.initial Unit) frameA 60 1
            = StatsState.initial Unit
        ∧ (StatsState.initial Unit).g_nativeStatsEnabled = false
        ∧ (∀ s0 : StatsState Unit,
            (Sniffer_EnableNativeStats echoTracker s0 false).g_nativeStatsEnabled = false)
        ∧ (∀ s0 : StatsState Unit,
            ProcessPacketForStats echoTracker (Sniffer_EnableNativeStats echoTracker s0 false)
                frameA 60 1
              = Sniffer_EnableNativeStats echoTracker s0 false)) :=
  ⟨rfl, C18_disabled_is_noop echoTracker (StatsState.initial Unit) frameA 60 1 rfl⟩

/-! ## Sequences of statistics calls -/

theorem statsRun_cons {σ : Type} (api : FlowTrackerApi σ) (sn : StatsState σ × Nat)
    (op : StatsOp) (ops : List StatsOp) :
    statsRun api sn (op :: ops) = statsRun api (statsStep api sn op) ops := rfl

/-- The two address histograms after one packet, with the counts as 64-bit words:
for a returned entry `e` the counts of `e.key.src_ip` and of `e.key.dst_ip`
become `(count + 1) mod 2 ^ 64` and no other key changes; without a returned
entry the three histograms are unchanged. -/
theorem histograms_after_packet {σ : Type} (api : FlowTrackerApi σ) (s : StatsState σ)
    (data : List Nat) (len ts : Nat) (hon : s.g_nativeStatsEnabled = true) :
    (∀ e : FlowEntry, trackerReturn api s data len ts = some e →
        hist_count (ProcessPacketForStats api s data len ts).g_sourceIPCounts e.key.src_ip
            = (hist_count s.g_sourceIPCounts e.key.src_ip + 1) % 2 ^ 64
        ∧ (hist_count s.g_sourceIPCounts e.key.src_ip + 1 < 2 ^ 64 →
            hist_count (ProcessPacketForStats api s data len ts).g_sourceIPCounts e.key.src_ip
              = hist_count s.g_sourceIPCounts e.key.src_ip + 1)
        ∧ (∀ k, k ≠ e.key.src_ip →
            hist_count (ProcessPacketForStats api s data len ts).g_sourceIPCounts k
              = hist_count s.g_sourceIPCounts k)
        ∧ hist_count (ProcessPacketForStats api s data len ts).g_destIPCounts e.key.dst_ip
            = (hist_count s.g_destIPCounts e.key.dst_ip + 1) % 2 ^ 64
        ∧ (hist_count s.g_destIPCounts e.key.dst_ip + 1 < 2 ^ 64 →
            hist_count (ProcessPacketForStats api s data len ts).g_destIPCounts e.key.dst_ip
              = hist_count s.g_destIPCounts e.key.dst_ip + 1)
        ∧ (∀ k, k ≠ e.key.dst_ip →
            hist_count (ProcessPacketForStats api s data len ts).g_destIPCounts k
              = hist_count s.g_destIPCounts k))
      ∧ (trackerReturn api s data len ts = none →
          (ProcessPacketForStats api s data len ts).g_sourceIPCounts = s.g_sourceIPCounts
          ∧ (ProcessPacketForStats api s data len ts).g_destIPCounts = s.g_destIPCounts
          ∧ (ProcessPacketForStats api s data len ts).g_portCounts = s.g_portCounts) := by
  refine ⟨?_, ?_⟩
  · intro e hret
    obtain ⟨_, g2, g3, _⟩ := ProcessPacketForStats_some api s data len ts e hon hret
    rw [g2, g3]
    refine ⟨?_, ?_, ?_, ?_, ?_, ?_⟩
    · rw [hist_count_inc_same]; rfl
    · intro hlt
      rw [hist_count_inc_same]
      exact u64_inc_of_lt hlt
    · intro k hk
      exact hist_count_inc_other _ _ _ hk
    · rw [hist_count_inc_same]; rfl
    · intro hlt
      rw [hist_count_inc_same]
      exact u64_inc_of_lt hlt
    · intro k hk
      exact hist_count_inc_other _ _ _ hk
  · intro hret
    exact (ProcessPacketForStats_none api s data len ts hon hret).2

/-- C19: with native stats enabled, for a packet for which the tracker returns an
entry `e`, while the counts of `e.key.src_ip` and of `e.key.dst_ip` are below
the largest `uint64_t` value, `ProcessPacketForStats` increases the source-IP
count of `e.key.src_ip` by exactly 1 and the dest-IP count of `e.key.dst_ip` by
exactly 1 and changes the count of no other key of those two histograms; and
for every packet for which the tracker returns no entry the three histograms
are unchanged. -/
theorem C19_histogram_update {σ : Type} (api : FlowTrackerApi σ) (s : StatsState σ)
    (data : List Nat) (len ts : Nat) (e : FlowEntry)
    (hon : s.g_nativeStatsEnabled = true)
    (hret : trackerReturn api s data len ts = some e)
    (hsrc : hist_count s.g_sourceIPCounts e.key.src_ip + 1 < 2 ^ 64)
    (hdst : hist_count s.g_destIPCounts e.key.dst_ip + 1 < 2 ^ 64) :
    hist_count (ProcessPacketForStats api s data len ts).g_sourceIPCounts e.key.src_ip
        = hist_count s.g_sourceIPCounts e.key.src_ip + 1
      ∧ (∀ k, k ≠ e.key.src_ip →
          hist_count (ProcessPacketForStats api s data len ts).g_sourceIPCounts k
            = hist_count s.g_sourceIPCounts k)
      ∧ hist_count (ProcessPacketForStats api s data len ts).g_destIPCounts e.key.dst_ip
        = hist_count s.g_destIPCounts e.key.dst_ip + 1
      ∧ (∀ k, k ≠ e.key.dst_ip →
          hist_count (ProcessPacketForStats api s data len ts).g_destIPCounts k
            = hist_count s.g_destIPCounts k)
      ∧ (∀ (data2 : List Nat) (len2 ts2 : Nat), trackerReturn api s data2 len2 ts2 = none →
          (ProcessPacketForStats api s data2 len2 ts2).g_sourceIPCounts = s.g_sourceIPCounts
          ∧ (ProcessPacketForStats api s data2 len2 ts2).g_destIPCounts = s.g_destIPCounts
          ∧ (ProcessPacketForStats api s data2 len2 ts2).g_portCounts = s.g_portCounts) := by
  obtain ⟨_, a2, a3, _, b2, b3⟩ := (histograms_after_packet api s data len ts hon).1 e hret
  refine ⟨a2 hsrc, a3, b2 hdst, b3, ?_⟩
  intro data2 len2 ts2 hnone
  exact (histograms_after_packet api s data2 len2 ts2 hon).2 hnone

/-- Witness of C19: a frame of flow A offered to the stand-in tracker right after
native stats have been enabled; the frame `[1, 2]` is one it does not parse. -/
theorem C19_histogram_update_witness :
    statsEnabled.g_nativeStatsEnabled = true
      ∧ trackerReturn echoTracker statsEnabled frameA 60 1 = some (FlowEntry.ofKey keyA)
      ∧ hist_count statsEnabled.g_sourceIPCounts (FlowEntry.ofKey keyA).key.src_ip + 1 < 2 ^ 64
      ∧ hist_count statsEnabled.g_destIPCounts (FlowEntry.ofKey keyA).key.dst_ip + 1 < 2 ^ 64
      ∧ (hist_count (ProcessPacketForStats echoTracker statsEnabled frameA 60 1).g_sourceIPCounts
              (FlowEntry.ofKey keyA).key.src_ip
            = hist_count statsEnabled.g_sourceIPCounts (FlowEntry.ofKey keyA).key.src_ip + 1
        ∧ (∀ k, k ≠ (FlowEntry.ofKey keyA).key.src_ip →
            hist_count (ProcessPacketForStats echoTracker statsEnabled frameA 60 1).g_sourceIPCounts
                k
              = hist_count statsEnabled.g_sourceIPCounts k)
        ∧ hist_count (ProcessPacketForStats echoTracker statsEnabled frameA 60 1).g_destIPCounts
              (FlowEntry.ofKey keyA).key.dst_ip
            = hist_count statsEnabled.g_destIPCounts (FlowEntry.ofKey keyA).key.dst_ip + 1
        ∧ (∀ k, k ≠ (FlowEntry.ofKey keyA).key.dst_ip →
            hist_count (ProcessPacketForStats echoTracker statsEnabled frameA 60 1).g_destIPCounts
                k
              = hist_count statsEnabled.g_destIPCounts k)
        ∧ (∀ (data2 : List Nat) (len2 ts2 : Nat),
            trackerReturn echoTracker statsEnabled data2 len2 ts2 = none →
            (ProcessPacketForStats echoTracker statsEnabled data2 len2 ts2).g_sourceIPCounts
              = statsEnabled.g_sourceIPCounts
            ∧ (ProcessPacketForStats echoTracker statsEnabled data2 len2 ts2).g_destIPCounts
              = statsEnabled.g_destIPCounts
            ∧ (ProcessPacketForStats echoTracker statsEnabled data2 len2 ts2).g_portCounts
              = statsEnabled.g_portCounts)) :=
  ⟨rfl, rfl, by decide, by decide,
    C19_histogram_update echoTracker statsEnabled frameA 60 1 (FlowEntry.ofKey keyA) rfl rfl
      (by decide) (by decide)⟩

/-! ## The sums of the two address histograms -/

/-- One call keeps the relation between the sums of the two address histograms
and the count `n` of accepted packets. -/
theorem sums_after_step {σ : Type} (api : FlowTrackerApi σ) (sn : StatsState σ × Nat)
    (op : StatsOp)
    (h : hist_sum sn.1.g_sourceIPCounts % 2 ^ 64 = sn.2 % 2 ^ 64
      ∧ hist_sum sn.1.g_destIPCounts % 2 ^ 64 = sn.2 % 2 ^ 64
      ∧ (sn.2 < 2 ^ 64 →
          hist_sum sn.1.g_sourceIPCounts = sn.2 ∧ hist_sum sn.1.g_destIPCounts = sn.2)) :
    hist_sum (statsStep api sn op).1.g_sourceIPCounts % 2 ^ 64 = (statsStep api sn op).2 % 2 ^ 64
      ∧ hist_sum (statsStep api sn op).1.g_destIPCounts % 2 ^ 64
          = (statsStep api sn op).2 % 2 ^ 64
      ∧ ((statsStep api sn op).2 < 2 ^ 64 →
          hist_sum (statsStep api sn op).1.g_sourceIPCounts = (statsStep api sn op).2
          ∧ hist_sum (statsStep api sn op).1.g_destIPCounts = (statsStep api sn op).2) := by
  obtain ⟨h1, h2, h3⟩ := h
  cases op with
  | ClearStatistics =>
    refine ⟨rfl, rfl, fun _ => ⟨rfl, rfl⟩⟩
  | EnableNativeStats enable =>
    cases enable with
    | false => exact ⟨h1, h2, h3⟩
    | true =>
      obtain ⟨_, f2, f3, _⟩ := InitFlowTracker_fields api
        { sn.1 with g_nativeStatsEnabled := true }
      show hist_sum (InitFlowTracker api _).g_sourceIPCounts % 2 ^ 64 = sn.2 % 2 ^ 64
        ∧ hist_sum (InitFlowTracker api _).g_destIPCounts % 2 ^ 64 = sn.2 % 2 ^ 64
        ∧ (sn.2 < 2 ^ 64 →
            hist_sum (InitFlowTracker api _).g_sourceIPCounts = sn.2
            ∧ hist_sum (InitFlowTracker api _).g_destIPCounts = sn.2)
      rw [f2, f3]
      exact ⟨h1, h2, h3⟩
  | ProcessPacketForStats data len ts =>
    cases hon : sn.1.g_nativeStatsEnabled with
    | false =>
      have hs : statsStep api sn (StatsOp.ProcessPacketForStats data len ts) = (sn.1, sn.2) := by
        simp [statsStep, hon, ProcessPacketForStats_disabled api sn.1 data len ts hon]
      rw [hs]
      exact ⟨h1, h2, h3⟩
    | true =>
      cases hret : trackerReturn api sn.1 data len ts with
      | none =>
        obtain ⟨_, g2, g3, _⟩ := ProcessPacketForStats_none api sn.1 data len ts hon hret
        have hs : statsStep api sn (StatsOp.ProcessPacketForStats data len ts)
            = (ProcessPacketForStats api sn.1 data len ts, sn.2) := by
          simp [statsStep, hon, hret]
        rw [hs]
        show hist_sum (ProcessPacketForStats api sn.1 data len ts).g_sourceIPCounts % 2 ^ 64
            = sn.2 % 2 ^ 64
          ∧ hist_sum (ProcessPacketForStats api sn.1 data len ts).g_destIPCounts % 2 ^ 64
            = sn.2 % 2 ^ 64
          ∧ (sn.2 < 2 ^ 64 →
              hist_sum (ProcessPacketForStats api sn.1 data len ts).g_sourceIPCounts = sn.2
              ∧ hist_sum (ProcessPacketForStats api sn.1 data len ts).g_destIPCounts = sn.2)
        rw [g2, g3]
        exact ⟨h1, h2, h3⟩
      | some e =>
        obtain ⟨_, g2, g3, _⟩ := ProcessPacketForStats_some api sn.1 data len ts e hon hret
        have hs : statsStep api sn (StatsOp.ProcessPacketForStats data len ts)
            = (ProcessPacketForStats api sn.1 data len ts, sn.2 + 1) := by
          simp [statsStep, hon, hret]
        rw [hs]
        show hist_sum (ProcessPacketForStats api sn.1 data len ts).g_sourceIPCounts % 2 ^ 64
            = (sn.2 + 1) % 2 ^ 64
          ∧ hist_sum (ProcessPacketForStats api sn.1 data len ts).g_destIPCounts % 2 ^ 64
            = (sn.2 + 1) % 2 ^ 64
          ∧ (sn.2 + 1 < 2 ^ 64 →
              hist_sum (ProcessPacketForStats api sn.1 data len ts).g_sourceIPCounts = sn.2 + 1
              ∧ hist_sum (ProcessPacketForStats api sn.1 data len ts).g_destIPCounts = sn.2 + 1)
        rw [g2, g3]
        have m1 := hist_sum_inc_mod sn.1.g_sourceIPCounts e.key.src_ip
        have m2 := hist_sum_inc_mod sn.1.g_destIPCounts e.key.dst_ip
        refine ⟨by omega, by omega, ?_⟩
        intro hlt
        obtain ⟨e1, e2⟩ := h3 (by omega)
        have b1 : ∀ p ∈ sn.1.g_sourceIPCounts, p.2 + 1 < 2 ^ 64 := by
          intro p hp
          have := le_hist_sum _ p hp
          omega
        have b2 : ∀ p ∈ sn.1.g_destIPCounts, p.2 + 1 < 2 ^ 64 := by
          intro p hp
          have := le_hist_sum _ p hp
          omega
        rw [hist_sum_inc_of_lt _ _ b1, hist_sum_inc_of_lt _ _ b2, e1, e2]
        exact ⟨rfl, rfl⟩

theorem sums_after_run {σ : Type} (api : FlowTrackerApi σ) (ops : List StatsOp) :
    ∀ sn : StatsState σ × Nat,
      (hist_sum sn.1.g_sourceIPCounts % 2 ^ 64 = sn.2 % 2 ^ 64
        ∧ hist_sum sn.1.g_destIPCounts % 2 ^ 64 = sn.2 % 2 ^ 64
        ∧ (sn.2 < 2 ^ 64 →
            hist_sum sn.1.g_sourceIPCounts = sn.2 ∧ hist_sum sn.1.g_destIPCounts = sn.2)) →
      (hist_sum (statsRun api sn ops).1.g_sourceIPCounts % 2 ^ 64 = (statsRun api sn ops).2 % 2 ^ 64
        ∧ hist_sum (statsRun api sn ops).1.g_destIPCounts % 2 ^ 64
            = (statsRun api sn ops).2 % 2 ^ 64
        ∧ ((statsRun api sn ops).2 < 2 ^ 64 →
            hist_sum (statsRun api sn ops).1.g_sourceIPCounts = (statsRun api sn ops).2
            ∧ hist_sum (statsRun api sn ops).1.g_destIPCounts = (statsRun api sn ops).2)) := by
  induction ops with
  | nil => intro sn h; exact h
  | cons op rest ih =>
    intro sn h
    rw [statsRun_cons]
    exact ih _ (sums_after_step api sn op h)

theorem statsRun_append {σ : Type} (api : FlowTrackerApi σ) (sn : StatsState σ × Nat)
    (ops1 ops2 : List StatsOp) :
    statsRun api sn (ops1 ++ ops2) = statsRun api (statsRun api sn ops1) ops2 := by
  unfold statsRun
  rw [List.foldl_append]

/-- The sums of the two address histograms after any sequence of calls from the
initial state, with `n` the number of packets accepted since the last
`Sniffer_ClearStatistics`: both sums are congruent to `n` modulo `2 ^ 64` and
equal to `n` when `n < 2 ^ 64`; after `Sniffer_ClearStatistics` the histograms are
empty and `n = 0`. -/
theorem histogram_sums_after_run {σ : Type} (api : FlowTrackerApi σ) (ops : List StatsOp) :
    hist_sum (statsRun api (StatsState.initial σ, 0) ops).1.g_sourceIPCounts % 2 ^ 64
        = (statsRun api (StatsState.initial σ, 0) ops).2 % 2 ^ 64
      ∧ hist_sum (statsRun api (StatsState.initial σ, 0) ops).1.g_destIPCounts % 2 ^ 64
        = (statsRun api (StatsState.initial σ, 0) ops).2 % 2 ^ 64
      ∧ ((statsRun api (StatsState.initial σ, 0) ops).2 < 2 ^ 64 →
          hist_sum (statsRun api (StatsState.initial σ, 0) ops).1.g_sourceIPCounts
            = (statsRun api (StatsState.initial σ, 0) ops).2
          ∧ hist_sum (statsRun api (StatsState.initial σ, 0) ops).1.g_destIPCounts
            = (statsRun api (StatsState.initial σ, 0) ops).2
          ∧ hist_sum (statsRun api (StatsState.initial σ, 0) ops).1.g_sourceIPCounts
            = hist_sum (statsRun api (StatsState.initial σ, 0) ops).1.g_destIPCounts)
      ∧ ((statsRun api (StatsState.initial σ, 0)
            (ops ++ [StatsOp.ClearStatistics])).1.g_sourceIPCounts = []
        ∧ (statsRun api (StatsState.initial σ, 0)
            (ops ++ [StatsOp.ClearStatistics])).1.g_destIPCounts = []
        ∧ (statsRun api (StatsState.initial σ, 0)
            (ops ++ [StatsOp.ClearStatistics])).1.g_portCounts = []
        ∧ (statsRun api (StatsState.initial σ, 0) (ops ++ [StatsOp.ClearStatistics])).2 = 0) := by
  have h0 : hist_sum (StatsState.initial σ, 0).1.g_sourceIPCounts % 2 ^ 64
        = (StatsState.initial σ, 0).2 % 2 ^ 64
      ∧ hist_sum (StatsState.initial σ, 0).1.g_destIPCounts % 2 ^ 64
        = (StatsState.initial σ, 0).2 % 2 ^ 64
      ∧ ((StatsState.initial σ, 0).2 < 2 ^ 64 →
          hist_sum (StatsState.initial σ, 0).1.g_sourceIPCounts = (StatsState.initial σ, 0).2
          ∧ hist_sum (StatsState.initial σ, 0).1.g_destIPCounts = (StatsState.initial σ, 0).2) :=
    ⟨rfl, rfl, fun _ => ⟨rfl, rfl⟩⟩
  obtain ⟨r1, r2, r3⟩ := sums_after_run api ops _ h0
  refine ⟨r1, r2, ?_, ?_⟩
  · intro hlt
    obtain ⟨e1, e2⟩ := r3 hlt
    exact ⟨e1, e2, e1.trans e2.symm⟩
  · rw [statsRun_append]
    exact ⟨rfl, rfl, rfl, rfl⟩

/-- C20: for every tracker and every sequence of `ProcessPacketForStats`,
`Sniffer_ClearStatistics` and `Sniffer_EnableNativeStats` calls from the initial
state in which fewer than `2 ^ 64` packets were accepted since the last
`Sniffer_ClearStatistics` (so that no count has wrapped), the sum of the
source-IP counts equals the sum of the dest-IP counts and both equal the
number of packets for which the tracker returned an entry since the last
`Sniffer_ClearStatistics`; right after `Sniffer_ClearStatistics` the three
histograms are empty and that number is 0. -/
theorem C20_histogram_sums {σ : Type} (api : FlowTrackerApi σ) (ops : List StatsOp)
    (hn : (statsRun api (StatsState.initial σ, 0) ops).2 < 2 ^ 64) :
    hist_sum (statsRun api (StatsState.initial σ, 0) ops).1.g_sourceIPCounts
        = hist_sum (statsRun api (StatsState.initial σ, 0) ops).1.g_destIPCounts
      ∧ hist_sum (statsRun api (StatsState.initial σ, 0) ops).1.g_sourceIPCounts
        = (statsRun api (StatsState.initial σ, 0) ops).2
      ∧ hist_sum (statsRun api (StatsState.initial σ, 0) ops).1.g_destIPCounts
        = (statsRun api (StatsState.initial σ, 0) ops).2
      ∧ ((statsRun api (StatsState.initial σ, 0)
            (ops ++ [StatsOp.ClearStatistics])).1.g_sourceIPCounts = []
        ∧ (statsRun api (StatsState.initial σ, 0)
            (ops ++ [StatsOp.ClearStatistics])).1.g_destIPCounts = []
        ∧ (statsRun api (StatsState.initial σ, 0)
            (ops ++ [StatsOp.ClearStatistics])).1.g_portCounts = []
        ∧ (statsRun api (StatsState.initial σ, 0) (ops ++ [StatsOp.ClearStatistics])).2 = 0) := by
  obtain ⟨_, _, g3, g4⟩ := histogram_sums_after_run api ops
  obtain ⟨e1, e2, e3⟩ := g3 hn
  exact ⟨e3, e1, e2, g4⟩

/-- Witness of C20: the sample sequence on the stand-in tracker, in which three
packets are accepted. -/
theorem C20_histogram_sums_witness :
    (statsRun echoTracker (StatsState.initial Unit, 0) sampleStatsOps).2 < 2 ^ 64
      ∧ (statsRun echoTracker (StatsState.initial Unit, 0) sampleStatsOps).2 = 3
      ∧ (hist_sum (statsRun echoTracker (StatsState.initial Unit, 0) sampleStatsOps).1.g_sourceIPCounts
            = hist_sum
                (statsRun echoTracker (StatsState.initial Unit, 0) sampleStatsOps).1.g_destIPCounts
        ∧ hist_sum (statsRun echoTracker (StatsState.initial Unit, 0) sampleStatsOps).1.g_sourceIPCounts
            = (statsRun echoTracker (StatsState.initial Unit, 0) sampleStatsOps).2
        ∧ hist_sum (statsRun echoTracker (StatsState.initial Unit, 0) sampleStatsOps).1.g_destIPCounts
            = (statsRun echoTracker (StatsState.initial Unit, 0) sampleStatsOps).2
        ∧ ((statsRun echoTracker (StatsState.initial Unit, 0)
              (sampleStatsOps ++ [StatsOp.ClearStatistics])).1.g_sourceIPCounts = []
          ∧ (statsRun echoTracker (StatsState.initial Unit, 0)
              (sampleStatsOps ++ [StatsOp.ClearStatistics])).1.g_destIPCounts = []
          ∧ (statsRun echoTracker (StatsState.initial Unit, 0)
              (sampleStatsOps ++ [StatsOp.ClearStatistics])).1.g_portCounts = []
          ∧ (statsRun echoTracker (StatsState.initial Unit, 0)
              (sampleStatsOps ++ [StatsOp.ClearStatistics])).2 = 0)) :=
  ⟨by decide, by decide,
    C20_histogram_sums echoTracker sampleStatsOps (by decide)⟩

/-! ## Sorting by count, descending -/

theorem insert_desc_perm {α : Type} (f : α → Nat) (a : α) (l : List α) :
    (insert_desc f a l).Perm (a :: l) := by
  induction l with
  | nil => exact List.Perm.refl _
  | cons b rest ih =>
    by_cases h : f a ≥ f b
    · simp only [insert_desc, h, if_true]
      exact List.Perm.refl _
    · simp only [insert_desc, h, if_false]
      exact (List.Perm.cons b ih).trans (List.Perm.swap a b rest)

theorem insert_desc_pairwise {α : Type} (f : α → Nat) (a : α) (l : List α)
    (hl : l.Pairwise (fun x y => f y ≤ f x)) :
    (insert_desc f a l).Pairwise (fun x y => f y ≤ f x) := by
  induction l with
  | nil => exact List.pairwise_singleton _ _
  | cons b rest ih =>
    rw [List.pairwise_cons] at hl
    obtain ⟨hb, hrest⟩ := hl
    by_cases h : f a ≥ f b
    · simp only [insert_desc, h, if_true]
      rw [List.pairwise_cons]
      refine ⟨?_, List.pairwise_cons.mpr ⟨hb, hrest⟩⟩
      intro y hy
      rcases List.mem_cons.mp hy with heq | htail
      · rw [heq]; exact h
      · exact le_trans (hb y htail) h
    · simp only [insert_desc, h, if_false]
      rw [List.pairwise_cons]
      refine ⟨?_, ih hrest⟩
      intro y hy
      have hy2 := (insert_desc_perm f a rest).subset hy
      rcases List.mem_cons.mp hy2 with heq | htail
      · rw [heq]; omega
      · exact hb y htail

theorem sort_desc_perm {α : Type} (f : α → Nat) (l : List α) : (sort_desc f l).Perm l := by
  induction l with
  | nil => exact List.Perm.refl _
  | cons a rest ih =>
    exact (insert_desc_perm f a (sort_desc f rest)).trans (List.Perm.cons a ih)

theorem sort_desc_pairwise {α : Type} (f : α → Nat) (l : List α) :
    (sort_desc f l).Pairwise (fun x y => f y ≤ f x) := by
  induction l with
  | nil => exact List.Pairwise.nil
  | cons a rest ih => exact insert_desc_pairwise f a (sort_desc f rest) ih

theorem sort_desc_IsStdSort {α : Type} (f : α → Nat) : IsStdSort f (sort_desc f) :=
  fun l => ⟨sort_desc_perm f l, sort_desc_pairwise f l⟩

theorem to_int32_of_lt {n : Nat} (h : n < 2 ^ 31) : to_int32 n = (n : Int) := by
  unfold to_int32
  have h1 : n % 2 ^ 32 = n := Nat.mod_eq_of_lt (by omega)
  rw [h1, if_pos h]

/-- The first `k` elements of a list sorted by `f`, descending: what is selected and
what is left out. -/
theorem top_of_sorted {α : Type} (f : α → Nat) (l sorted : List α) (k : Nat)
    (hperm : sorted.Perm l) (hsorted : sorted.Pairwise (fun x y => f y ≤ f x)) :
    (sorted.take k).length = min k l.length
      ∧ (∀ x ∈ sorted.take k, x ∈ l)
      ∧ (sorted.take k).Pairwise (fun x y => f y ≤ f x)
      ∧ (∀ q ∈ l, q ∉ sorted.take k → ∀ r ∈ sorted.take k, f q ≤ f r) := by
  refine ⟨?_, ?_, ?_, ?_⟩
  · rw [List.length_take, hperm.length_eq]
  · intro x hx
    exact hperm.subset (List.mem_of_mem_take hx)
  · exact hsorted.sublist (List.take_sublist k sorted)
  · intro q hq hnot r hr
    have hq2 : q ∈ sorted.take k ++ sorted.drop k := by
      rw [List.take_append_drop]
      exact hperm.symm.subset hq
    rcases List.mem_append.mp hq2 with h1 | h1
    · exact absurd h1 hnot
    · have hp : (sorted.take k ++ sorted.drop k).Pairwise (fun x y => f y ≤ f x) := by
        rw [List.take_append_drop]
        exact hsorted
      exact (List.pairwise_append.mp hp).2.2 r hr q h1

theorem top_keys_nodup {α β : Type} (g : α → β) (l sorted : List α) (k : Nat)
    (hperm : sorted.Perm l) (hnd : (l.map g).Nodup) : ((sorted.take k).map g).Nodup := by
  have h1 : (sorted.map g).Nodup := ((hperm.map g).nodup_iff).mpr hnd
  exact h1.sublist ((List.take_sublist k sorted).map g)

/-! ## The top-K reports -/

theorem IsTopSelection_take (l sorted : List (Nat × Nat)) (k : Nat)
    (hperm : sorted.Perm l) (hsorted : sorted.Pairwise (fun x y => y.2 ≤ x.2))
    (hnd : (l.map Prod.fst).Nodup) : IsTopSelection l (sorted.take k) k := by
  obtain ⟨h1, h2, h3, h4⟩ := top_of_sorted Prod.snd l sorted k hperm hsorted
  exact ⟨h1, h2, top_keys_nodup Prod.fst l sorted k hperm hnd, h3, h4⟩

theorem top_count_of_fits (maxCount : Int) (n : Nat) (hn : n < 2 ^ 31) :
    (min maxCount (to_int32 n)).toNat = min maxCount.toNat n
      ∧ (0 < maxCount → min maxCount (to_int32 n) = ((min maxCount.toNat n : Nat) : Int)) := by
  rw [to_int32_of_lt hn]
  constructor
  · omega
  · intro hpos
    omega

/-- C14: for each of `Sniffer_GetTopSourceIPs`, `Sniffer_GetTopDestIPs` and
`Sniffer_GetTopPorts`, with a buffer (`stats` not null), any sort that meets the
guarantees of `std::sort`, a histogram of `n` pairwise distinct keys with `n`
an `int` value (`n < 2 ^ 31`) and every `maxCount`: the call returns the number
of rows it wrote, which is `min(maxCount, n)` (0 when `maxCount ≤ 0`); the rows
are those of `sel`, a list of entries of the histogram with pairwise distinct
keys, each with its stored count, in non-increasing order of count, and no
entry of the histogram left out of `sel` has a count greater than that of an
entry in `sel`. -/
theorem C14_top_reports {σ : Type} (IP4ToString : Nat → String)
    (sort : List (Nat × Nat) → List (Nat × Nat)) (hsort : IsStdSort Prod.snd sort)
    (s : StatsState σ) (maxCount : Int)
    (hsrc : (s.g_sourceIPCounts.map Prod.fst).Nodup ∧ s.g_sourceIPCounts.length < 2 ^ 31)
    (hdst : (s.g_destIPCounts.map Prod.fst).Nodup ∧ s.g_destIPCounts.length < 2 ^ 31)
    (hport : (s.g_portCounts.map Prod.fst).Nodup ∧ s.g_portCounts.length < 2 ^ 31) :
    (∃ sel, IsTopSelection s.g_sourceIPCounts sel maxCount.toNat
        ∧ Sniffer_GetTopSourceIPs IP4ToString sort s true maxCount
          = ((sel.length : Int), sel.map (fun p =>
              { ipAddress := IP4ToString p.1, packetCount := p.2, byteCount := 0 })))
      ∧ (∃ sel, IsTopSelection s.g_destIPCounts sel maxCount.toNat
        ∧ Sniffer_GetTopDestIPs IP4ToString sort s true maxCount
          = ((sel.length : Int), sel.map (fun p =>
              { ipAddress := IP4ToString p.1, packetCount := p.2, byteCount := 0 })))
      ∧ (∃ sel, IsTopSelection s.g_portCounts sel maxCount.toNat
        ∧ Sniffer_GetTopPorts sort s true maxCount
          = ((sel.length : Int), sel.map (fun p =>
              { port := p.1, serviceName := (GetServiceName p.1).take 31,
                packetCount := p.2 }))) := by
  have key : ∀ l : List (Nat × Nat), (l.map Prod.fst).Nodup → l.length < 2 ^ 31 →
      0 < maxCount →
      IsTopSelection l ((sort l).take (min maxCount (to_int32 (sort l).length)).toNat)
          maxCount.toNat
        ∧ min maxCount (to_int32 (sort l).length)
          = ((((sort l).take (min maxCount (to_int32 (sort l).length)).toNat).length : Nat)
              : Int) := by
    intro l hnd hlen hpos
    obtain ⟨hperm, hsorted⟩ := hsort l
    have hl : (sort l).length = l.length := hperm.length_eq
    obtain ⟨c1, c2⟩ := top_count_of_fits maxCount l.length hlen
    rw [hl, c1]
    obtain ⟨a1, a2, a3, a4, a5⟩ := IsTopSelection_take l (sort l) (min maxCount.toNat l.length)
      hperm hsorted hnd
    refine ⟨⟨?_, a2, a3, a4, a5⟩, ?_⟩
    · rw [a1]
      omega
    · rw [c2 hpos, List.length_take, hl]
      congr 1
      omega
  have nil_sel : ∀ l : List (Nat × Nat), maxCount ≤ 0 → IsTopSelection l [] maxCount.toNat := by
    intro l hle
    have h0 : maxCount.toNat = 0 := by omega
    rw [h0]
    unfold IsTopSelection
    refine ⟨by simp, ?_, List.nodup_nil, List.Pairwise.nil, ?_⟩
    · intro x hx
      cases hx
    · intro q _ _ r hr
      cases hr
  by_cases hpos : 0 < maxCount
  · have hg : ¬ (maxCount ≤ 0) := by omega
    refine ⟨?_, ?_, ?_⟩
    · obtain ⟨k1, k2⟩ := key s.g_sourceIPCounts hsrc.1 hsrc.2 hpos
      refine ⟨_, k1, ?_⟩
      simp only [Sniffer_GetTopSourceIPs, Bool.not_true, Bool.false_or, decide_eq_true_eq, hg,
        if_false]
      rw [← k2]
    · obtain ⟨k1, k2⟩ := key s.g_destIPCounts hdst.1 hdst.2 hpos
      refine ⟨_, k1, ?_⟩
      simp only [Sniffer_GetTopDestIPs, Bool.not_true, Bool.false_or, decide_eq_true_eq, hg,
        if_false]
      rw [← k2]
    · obtain ⟨k1, k2⟩ := key s.g_portCounts hport.1 hport.2 hpos
      refine ⟨_, k1, ?_⟩
      simp only [Sniffer_GetTopPorts, Bool.not_true, Bool.false_or, decide_eq_true_eq, hg,
        if_false]
      rw [← k2]
  · have hle : maxCount ≤ 0 := by omega
    refine ⟨⟨[], nil_sel _ hle, ?_⟩, ⟨[], nil_sel _ hle, ?_⟩, ⟨[], nil_sel _ hle, ?_⟩⟩
    · simp [Sniffer_GetTopSourceIPs, hle]
    · simp [Sniffer_GetTopDestIPs, hle]
    · simp [Sniffer_GetTopPorts, hle]

/-- Witness of C14: the sample state with three small histograms, the insertion
sort and `maxCount = 3`. -/
theorem C14_top_reports_witness :
    IsStdSort Prod.snd (sort_desc (Prod.snd : Nat × Nat → Nat))
      ∧ ((sampleReportState.g_sourceIPCounts.map Prod.fst).Nodup
          ∧ sampleReportState.g_sourceIPCounts.length < 2 ^ 31)
      ∧ ((sampleReportState.g_destIPCounts.map Prod.fst).Nodup
          ∧ sampleReportState.g_destIPCounts.length < 2 ^ 31)
      ∧ ((sampleReportState.g_portCounts.map Prod.fst).Nodup
          ∧ sampleReportState.g_portCounts.length < 2 ^ 31)
      ∧ ((∃ sel, IsTopSelection sampleReportState.g_sourceIPCounts sel (3 : Int).toNat
            ∧ Sniffer_GetTopSourceIPs (fun ip => toString ip) (sort_desc Prod.snd)
                sampleReportState true 3
              = ((sel.length : Int), sel.map (fun p =>
                  { ipAddress := toString p.1, packetCount := p.2, byteCount := 0 })))
        ∧ (∃ sel, IsTopSelection sampleReportState.g_destIPCounts sel (3 : Int).toNat
            ∧ Sniffer_GetTopDestIPs (fun ip => toString ip) (sort_desc Prod.snd)
                sampleReportState true 3
              = ((sel.length : Int), sel.map (fun p =>
                  { ipAddress := toString p.1, packetCount := p.2, byteCount := 0 })))
        ∧ (∃ sel, IsTopSelection sampleReportState.g_portCounts sel (3 : Int).toNat
            ∧ Sniffer_GetTopPorts (sort_desc Prod.snd) sampleReportState true 3
              = ((sel.length : Int), sel.map (fun p =>
                  { port := p.1, serviceName := (GetServiceName p.1).take 31,
                    packetCount := p.2 })))) :=
  ⟨sort_desc_IsStdSort Prod.snd, ⟨by decide, by decide⟩, ⟨by decide, by decide⟩,
    ⟨by decide, by decide⟩,
    C14_top_reports (fun ip => toString ip) (sort_desc Prod.snd) (sort_desc_IsStdSort Prod.snd)
      sampleReportState 3 ⟨by decide, by decide⟩ ⟨by decide, by decide⟩
      ⟨by decide, by decide⟩⟩

/-- C15 (as stated, refuted): a port histogram that holds the count 2 for port 443
and for port 80 and that the map iterates in the order 443, 80. With the
insertion sort, `Sniffer_GetTopPorts` reports port 443 before port 80: the
counts are equal and the larger key comes first. The histogram with the same
contents iterated in the order 80, 443 is reported 80 before 443: the result
is not a function of the contents of the histogram. -/
theorem C15_equal_counts_keep_iteration_order :
    (Sniffer_GetTopPorts (sort_desc Prod.snd) (portState [(443, 2), (80, 2)]) true 2).2.map
        (fun r => (r.port, r.packetCount)) = [(443, 2), (80, 2)]
      ∧ (Sniffer_GetTopPorts (sort_desc Prod.snd) (portState [(80, 2), (443, 2)]) true 2).2.map
        (fun r => (r.port, r.packetCount)) = [(80, 2), (443, 2)]
      ∧ (portState [(443, 2), (80, 2)]).g_portCounts.Perm
          (portState [(80, 2), (443, 2)]).g_portCounts := by
  refine ⟨by decide, by decide, List.Perm.swap _ _ _⟩

theorem top_counts_eq (sort1 sort2 : List (Nat × Nat) → List (Nat × Nat))
    (h1 : IsStdSort Prod.snd sort1) (h2 : IsStdSort Prod.snd sort2)
    (l1 l2 : List (Nat × Nat)) (hp : l1.Perm l2) :
    (sort1 l1).length = (sort2 l2).length
      ∧ ∀ k : Nat, ((sort1 l1).take k).map Prod.snd = ((sort2 l2).take k).map Prod.snd := by
  obtain ⟨p1, s1⟩ := h1 l1
  obtain ⟨p2, s2⟩ := h2 l2
  have hperm : ((sort1 l1).map Prod.snd).Perm ((sort2 l2).map Prod.snd) :=
    ((p1.trans hp).trans p2.symm).map Prod.snd
  have hs1 : ((sort1 l1).map Prod.snd).Pairwise (fun x y => y ≤ x) :=
    List.pairwise_map.mpr s1
  have hs2 : ((sort2 l2).map Prod.snd).Pairwise (fun x y => y ≤ x) :=
    List.pairwise_map.mpr s2
  have heq : (sort1 l1).map Prod.snd = (sort2 l2).map Prod.snd :=
    @List.eq_of_perm_of_sorted Nat (fun x y => y ≤ x)
      ⟨fun a b hab hba => le_antisymm hba hab⟩ _ _ hperm hs1 hs2
  refine ⟨(p1.trans hp).length_eq.trans p2.length_eq.symm, ?_⟩
  intro k
  rw [List.map_take, List.map_take, heq]

theorem GetTopSourceIPs_eq_top_rows {σ : Type} (IP4ToString : Nat → String)
    (sort : List (Nat × Nat) → List (Nat × Nat)) (s : StatsState σ) (stats : Bool)
    (maxCount : Int) :
    Sniffer_GetTopSourceIPs IP4ToString sort s stats maxCount
      = top_rows (fun p => { ipAddress := IP4ToString p.1, packetCount := p.2, byteCount := 0 })
          sort s.g_sourceIPCounts stats maxCount := rfl

theorem GetTopDestIPs_eq_top_rows {σ : Type} (IP4ToString : Nat → String)
    (sort : List (Nat × Nat) → List (Nat × Nat)) (s : StatsState σ) (stats : Bool)
    (maxCount : Int) :
    Sniffer_GetTopDestIPs IP4ToString sort s stats maxCount
      = top_rows (fun p => { ipAddress := IP4ToString p.1, packetCount := p.2, byteCount := 0 })
          sort s.g_destIPCounts stats maxCount := rfl

theorem GetTopPorts_eq_top_rows {σ : Type}
    (sort : List (Nat × Nat) → List (Nat × Nat)) (s : StatsState σ) (stats : Bool)
    (maxCount : Int) :
    Sniffer_GetTopPorts sort s stats maxCount
      = top_rows
          (fun p =>
            { port := p.1, serviceName := (GetServiceName p.1).take 31, packetCount := p.2 })
          sort s.g_portCounts stats maxCount := rfl

/-- The counts of the rows of a report depend only on the contents of the
histogram, and they do not increase along the rows. -/
theorem top_rows_counts {ρ : Type} (row : Nat × Nat → ρ) (cnt : ρ → Nat)
    (hrow : ∀ p, cnt (row p) = p.2)
    (sort1 sort2 : List (Nat × Nat) → List (Nat × Nat))
    (h1 : IsStdSort Prod.snd sort1) (h2 : IsStdSort Prod.snd sort2)
    (l1 l2 : List (Nat × Nat)) (hp : l1.Perm l2) (stats : Bool) (maxCount : Int) :
    (top_rows row sort1 l1 stats maxCount).1 = (top_rows row sort2 l2 stats maxCount).1
      ∧ (top_rows row sort1 l1 stats maxCount).2.map cnt
        = (top_rows row sort2 l2 stats maxCount).2.map cnt
      ∧ ((top_rows row sort1 l1 stats maxCount).2.map cnt).Pairwise (fun x y => y ≤ x) := by
  have hcnt : ∀ sel : List (Nat × Nat), (sel.map row).map cnt = sel.map Prod.snd := by
    intro sel
    rw [List.map_map]
    apply List.map_congr_left
    intro p _
    exact hrow p
  by_cases hg : (!stats || decide (maxCount ≤ 0)) = true
  · have e : ∀ (sort : List (Nat × Nat) → List (Nat × Nat)) (l : List (Nat × Nat)),
        top_rows row sort l stats maxCount = (0, []) := by
      intro sort l
      simp only [top_rows, hg, if_true]
    rw [e, e]
    exact ⟨rfl, rfl, List.Pairwise.nil⟩
  · have e : ∀ (sort : List (Nat × Nat) → List (Nat × Nat)) (l : List (Nat × Nat)),
        top_rows row sort l stats maxCount
          = (min maxCount (to_int32 (sort l).length),
              ((sort l).take (min maxCount (to_int32 (sort l).length)).toNat).map row) := by
      intro sort l
      simp only [top_rows, hg, if_false, Bool.false_eq_true]
    obtain ⟨hlen, htake⟩ := top_counts_eq sort1 sort2 h1 h2 l1 l2 hp
    rw [e, e]
    show min maxCount (to_int32 (sort1 l1).length) = min maxCount (to_int32 (sort2 l2).length)
      ∧ (((sort1 l1).take (min maxCount (to_int32 (sort1 l1).length)).toNat).map row).map cnt
        = (((sort2 l2).take (min maxCount (to_int32 (sort2 l2).length)).toNat).map row).map cnt
      ∧ ((((sort1 l1).take (min maxCount (to_int32 (sort1 l1).length)).toNat).map row).map
          cnt).Pairwise (fun x y => y ≤ x)
    rw [hcnt, hcnt, hlen]
    refine ⟨rfl, htake _, ?_⟩
    exact List.pairwise_map.mpr (((h1 l1).2).sublist (List.take_sublist _ _))

/-- C15 (amended): ties are not broken by key. For any two sorts that meet the
guarantees of `std::sort` and any two states whose histograms have the same
contents (in whatever iteration order), each of `Sniffer_GetTopSourceIPs`,
`Sniffer_GetTopDestIPs` and `Sniffer_GetTopPorts` returns the same number and
writes rows with the same sequence of counts, and that sequence does not
increase; which of the keys with equal counts come first is left open. -/
theorem C15_counts_determined_by_contents {σ τ : Type} (IP4ToString : Nat → String)
    (sort1 sort2 : List (Nat × Nat) → List (Nat × Nat))
    (h1 : IsStdSort Prod.snd sort1) (h2 : IsStdSort Prod.snd sort2)
    (s1 : StatsState σ) (s2 : StatsState τ) (stats : Bool) (maxCount : Int)
    (hsrc : s1.g_sourceIPCounts.Perm s2.g_sourceIPCounts)
    (hdst : s1.g_destIPCounts.Perm s2.g_destIPCounts)
    (hport : s1.g_portCounts.Perm s2.g_portCounts) :
    ((Sniffer_GetTopSourceIPs IP4ToString sort1 s1 stats maxCount).1
          = (Sniffer_GetTopSourceIPs IP4ToString sort2 s2 stats maxCount).1
        ∧ (Sniffer_GetTopSourceIPs IP4ToString sort1 s1 stats maxCount).2.map
            (fun r => r.packetCount)
          = (Sniffer_GetTopSourceIPs IP4ToString sort2 s2 stats maxCount).2.map
            (fun r => r.packetCount)
        ∧ ((Sniffer_GetTopSourceIPs IP4ToString sort1 s1 stats maxCount).2.map
            (fun r => r.packetCount)).Pairwise (fun x y => y ≤ x))
      ∧ ((Sniffer_GetTopDestIPs IP4ToString sort1 s1 stats maxCount).1
          = (Sniffer_GetTopDestIPs IP4ToString sort2 s2 stats maxCount).1
        ∧ (Sniffer_GetTopDestIPs IP4ToString sort1 s1 stats maxCount).2.map
            (fun r => r.packetCount)
          = (Sniffer_GetTopDestIPs IP4ToString sort2 s2 stats maxCount).2.map
            (fun r => r.packetCount)
        ∧ ((Sniffer_GetTopDestIPs IP4ToString sort1 s1 stats maxCount).2.map
            (fun r => r.packetCount)).Pairwise (fun x y => y ≤ x))
      ∧ ((Sniffer_GetTopPorts sort1 s1 stats maxCount).1
          = (Sniffer_GetTopPorts sort2 s2 stats maxCount).1
        ∧ (Sniffer_GetTopPorts sort1 s1 stats maxCount).2.map (fun r => r.packetCount)
          = (Sniffer_GetTopPorts sort2 s2 stats maxCount).2.map (fun r => r.packetCount)
        ∧ ((Sniffer_GetTopPorts sort1 s1 stats maxCount).2.map
            (fun r => r.packetCount)).Pairwise (fun x y => y ≤ x)) := by
  refine ⟨?_, ?_, ?_⟩
  · rw [GetTopSourceIPs_eq_top_rows, GetTopSourceIPs_eq_top_rows]
    exact top_rows_counts _ (fun r : NativeTalkerStats => r.packetCount) (fun _ => rfl)
      sort1 sort2 h1 h2 _ _ hsrc stats maxCount
  · rw [GetTopDestIPs_eq_top_rows, GetTopDestIPs_eq_top_rows]
    exact top_rows_counts _ (fun r : NativeTalkerStats => r.packetCount) (fun _ => rfl)
      sort1 sort2 h1 h2 _ _ hdst stats maxCount
  · rw [GetTopPorts_eq_top_rows, GetTopPorts_eq_top_rows]
    exact top_rows_counts _ (fun r : NativePortStats => r.packetCount) (fun _ => rfl)
      sort1 sort2 h1 h2 _ _ hport stats maxCount

/-- Witness of C15 (amended): the port histograms `[(443, 2), (80, 2)]` and
`[(80, 2), (443, 2)]`, the insertion sort and `maxCount = 2`. -/
theorem C15_counts_determined_by_contents_witness :
    IsStdSort Prod.snd (sort_desc (Prod.snd : Nat × Nat → Nat))
      ∧ (portState [(443, 2), (80, 2)]).g_sourceIPCounts.Perm
          (portState [(80, 2), (443, 2)]).g_sourceIPCounts
      ∧ (portState [(443, 2), (80, 2)]).g_destIPCounts.Perm
          (portState [(80, 2), (443, 2)]).g_destIPCounts
      ∧ (portState [(443, 2), (80, 2)]).g_portCounts.Perm
          (portState [(80, 2), (443, 2)]).g_portCounts
      ∧ (Sniffer_GetTopPorts (sort_desc Prod.snd) (portState [(443, 2), (80, 2)]) true 2).1
          = (Sniffer_GetTopPorts (sort_desc Prod.snd) (portState [(80, 2), (443, 2)]) true 2).1
      ∧ (Sniffer_GetTopPorts (sort_desc Prod.snd) (portState [(443, 2), (80, 2)]) true 2).2.map
            (fun r => r.packetCount)
          = (Sniffer_GetTopPorts (sort_desc Prod.snd) (portState [(80, 2), (443, 2)])
              true 2).2.map (fun r => r.packetCount)
      ∧ ((Sniffer_GetTopPorts (sort_desc Prod.snd) (portState [(443, 2), (80, 2)])
            true 2).2.map (fun r => r.packetCount)).Pairwise (fun x y => y ≤ x) :=
  ⟨sort_desc_IsStdSort Prod.snd, List.Perm.refl _, List.Perm.refl _, List.Perm.swap _ _ _,
    (C15_counts_determined_by_contents (fun _ => "") (sort_desc Prod.snd) (sort_desc Prod.snd)
      (sort_desc_IsStdSort Prod.snd) (sort_desc_IsStdSort Prod.snd)
      (portState [(443, 2), (80, 2)]) (portState [(80, 2), (443, 2)]) true 2
      (List.Perm.refl _) (List.Perm.refl _) (List.Perm.swap _ _ _)).2.2⟩

/-! ## A second cleanup -/

theorem CleanupExpired_loop_nothing_expired (now T : Nat) (l : List (FlowKey × FlowEntry))
    (h : ∀ p ∈ l, expired now T p = false) :
    ∀ r c : Nat, FlowTable.CleanupExpired_loop now T l r c = (l, r, c) := by
  induction l with
  | nil => intro r c; rfl
  | cons p rest ih =>
    intro r c
    have hp : ¬ (u64_sub now p.2.stats.last_seen_us > T) := by
      have := h p (List.mem_cons_self p rest)
      simpa [expired] using this
    simp only [FlowTable.CleanupExpired_loop, hp, if_false]
    rw [ih (fun q hq => h q (List.mem_cons_of_mem p hq)) r c]

/-- C21: a second `CleanupExpired(now, timeout)` right after the first, with the
same arguments, removes nothing: it returns 0 and leaves the whole table (the
map, `flow_count_` and the other members) exactly as the first call left it. -/
theorem C21_cleanup_idempotent (t : FlowTable) (now T : Nat) :
    (t.CleanupExpired now T).2.CleanupExpired now T = (0, (t.CleanupExpired now T).2) := by
  have hkept : ∀ p ∈ (t.CleanupExpired now T).2.flows_, expired now T p = false := by
    intro p hp
    rw [CleanupExpired_flows, List.mem_filter] at hp
    simpa using hp.2
  have hloop := CleanupExpired_loop_nothing_expired now T _ hkept 0
    (t.CleanupExpired now T).2.flow_count_
  unfold FlowTable.CleanupExpired at hloop ⊢
  simp only at hloop ⊢
  rw [hloop]

/-! ## The aggregation of `Sniffer_GetProtocolStats` -/

theorem keys_proto_add (acc : List (AppProtocol × Nat × Nat)) (p : AppProtocol) (a b : Nat)
    (x : AppProtocol) :
    x ∈ (proto_add acc p a b).map Prod.fst ↔ x = p ∨ x ∈ acc.map Prod.fst := by
  induction acc with
  | nil => simp [proto_add]
  | cons q rest ih =>
    by_cases hq : q.1 = p
    · simp only [proto_add, hq, if_true, List.map_cons, List.mem_cons]
      constructor
      · rintro (h1 | h1)
        · exact Or.inl h1
        · exact Or.inr (Or.inr h1)
      · rintro (h1 | h1 | h1)
        · exact Or.inl h1
        · exact Or.inl h1
        · exact Or.inr h1
    · simp only [proto_add, hq, if_false, List.map_cons, List.mem_cons, ih]
      constructor
      · rintro (h1 | h1 | h1)
        · exact Or.inr (Or.inl h1)
        · exact Or.inl h1
        · exact Or.inr (Or.inr h1)
      · rintro (h1 | h1 | h1)
        · exact Or.inr (Or.inl h1)
        · exact Or.inl h1
        · exact Or.inr (Or.inr h1)

theorem nodup_proto_add (acc : List (AppProtocol × Nat × Nat)) (p : AppProtocol) (a b : Nat)
    (h : (acc.map Prod.fst).Nodup) : ((proto_add acc p a b).map Prod.fst).Nodup := by
  induction acc with
  | nil => simp [proto_add]
  | cons q rest ih =>
    rw [List.map_cons, List.nodup_cons] at h
    by_cases hq : q.1 = p
    · simp only [proto_add, hq, if_true, List.map_cons]
      rw [List.nodup_cons]
      rw [hq] at h
      exact h
    · simp only [proto_add, hq, if_false, List.map_cons]
      rw [List.nodup_cons]
      refine ⟨?_, ih h.2⟩
      rw [keys_proto_add]
      rintro (h1 | h1)
      · exact hq h1
      · exact h.1 h1

theorem mem_proto_add (acc : List (AppProtocol × Nat × Nat)) (p : AppProtocol) (a b : Nat)
    (hnd : (acc.map Prod.fst).Nodup) (q : AppProtocol × Nat × Nat)
    (hq : q ∈ proto_add acc p a b) :
    (q.1 ≠ p ∧ q ∈ acc)
      ∨ (q.1 = p ∧ ∃ q0 ∈ acc, q0.1 = p
          ∧ q.2.1 = (q0.2.1 + a) % 2 ^ 64 ∧ q.2.2 = (q0.2.2 + b) % 2 ^ 64)
      ∨ (q.1 = p ∧ p ∉ acc.map Prod.fst
          ∧ q.2.1 = (0 + a) % 2 ^ 64 ∧ q.2.2 = (0 + b) % 2 ^ 64) := by
  induction acc with
  | nil =>
    simp only [proto_add, List.mem_singleton] at hq
    rw [hq]
    exact Or.inr (Or.inr ⟨rfl, by simp, rfl, rfl⟩)
  | cons r rest ih =>
    rw [List.map_cons, List.nodup_cons] at hnd
    by_cases hr : r.1 = p
    · simp only [proto_add, hr, if_true, List.mem_cons] at hq
      rcases hq with h1 | h1
      · rw [h1]
        exact Or.inr (Or.inl ⟨rfl, r, List.mem_cons_self r rest, hr, rfl, rfl⟩)
      · have hne : q.1 ≠ p := by
          intro hqp
          apply hnd.1
          rw [hr, ← hqp]
          exact List.mem_map_of_mem Prod.fst h1
        exact Or.inl ⟨hne, List.mem_cons_of_mem r h1⟩
    · simp only [proto_add, hr, if_false, List.mem_cons] at hq
      rcases hq with h1 | h1
      · rw [h1]
        exact Or.inl ⟨hr, List.mem_cons_self r rest⟩
      · rcases ih hnd.2 h1 with h2 | h2 | h2
        · exact Or.inl ⟨h2.1, List.mem_cons_of_mem r h2.2⟩
        · obtain ⟨e1, q0, hq0, e2, e3, e4⟩ := h2
          exact Or.inr (Or.inl ⟨e1, q0, List.mem_cons_of_mem r hq0, e2, e3, e4⟩)
        · obtain ⟨e1, e2, e3, e4⟩ := h2
          refine Or.inr (Or.inr ⟨e1, ?_, e3, e4⟩)
          rw [List.map_cons, List.mem_cons]
          rintro (h3 | h3)
          · exact hr h3.symm
          · exact e2 h3

theorem proto_sum_append_single (v : FlowEntry → Nat) (done : List FlowEntry) (f : FlowEntry)
    (p : AppProtocol) :
    proto_sum v (done ++ [f]) p
      = proto_sum v done p + (if f.stats.app_protocol = p then v f else 0) := by
  unfold proto_sum
  rw [List.filter_append, List.map_append, List.sum_append]
  by_cases h : f.stats.app_protocol = p
  · simp [List.filter, h]
  · simp [List.filter, h]

theorem proto_sum_eq_zero (v : FlowEntry → Nat) (done : List FlowEntry) (p : AppProtocol)
    (h : p ∉ done.map (fun f => f.stats.app_protocol)) : proto_sum v done p = 0 := by
  unfold proto_sum
  have hnil : done.filter (fun f => decide (f.stats.app_protocol = p)) = [] := by
    rw [List.filter_eq_nil_iff]
    intro f hf hfp
    apply h
    rw [List.mem_map]
    exact ⟨f, hf, of_decide_eq_true hfp⟩
  rw [hnil]
  rfl

theorem AggInv_step (acc : List (AppProtocol × Nat × Nat)) (done : List FlowEntry)
    (f : FlowEntry) (h : AggInv acc done) :
    AggInv (proto_add acc f.stats.app_protocol f.stats.TotalPackets f.stats.TotalBytes)
      (done ++ [f]) := by
  obtain ⟨hnd, hkeys, hvals⟩ := h
  refine ⟨nodup_proto_add acc _ _ _ hnd, ?_, ?_⟩
  · intro x
    rw [keys_proto_add, List.map_append, List.mem_append, hkeys]
    simp only [List.map_cons, List.map_nil, List.mem_singleton]
    constructor
    · rintro (h1 | h1)
      · exact Or.inr h1
      · exact Or.inl h1
    · rintro (h1 | h1)
      · exact Or.inr h1
      · exact Or.inl h1
  · intro q hq
    rw [proto_sum_append_single, proto_sum_append_single]
    rcases mem_proto_add acc _ _ _ hnd q hq with h1 | h1 | h1
    · obtain ⟨hne, hmem⟩ := h1
      have hne2 : ¬ (f.stats.app_protocol = q.1) := fun e => hne e.symm
      rw [if_neg hne2, if_neg hne2, Nat.add_zero, Nat.add_zero]
      exact hvals q hmem
    · obtain ⟨he, q0, hq0, hq0p, e1, e2⟩ := h1
      obtain ⟨v1, v2⟩ := hvals q0 hq0
      rw [if_pos he.symm, if_pos he.symm, e1, e2, v1, v2, hq0p, he]
      constructor
      · omega
      · omega
    · obtain ⟨he, hnot, e1, e2⟩ := h1
      have hz : f.stats.app_protocol ∉ done.map (fun g => g.stats.app_protocol) := by
        intro hmem
        exact hnot ((hkeys _).mpr hmem)
      rw [if_pos he.symm, if_pos he.symm, e1, e2, he, proto_sum_eq_zero _ _ _ hz,
        proto_sum_eq_zero _ _ _ hz]
      exact ⟨rfl, rfl⟩

theorem AggInv_foldl (rest : List FlowEntry) :
    ∀ (acc : List (AppProtocol × Nat × Nat)) (done : List FlowEntry), AggInv acc done →
      AggInv
        (rest.foldl
          (fun acc flow =>
            proto_add acc flow.stats.app_protocol flow.stats.TotalPackets flow.stats.TotalBytes)
          acc)
        (done ++ rest) := by
  induction rest with
  | nil =>
    intro acc done h
    rw [List.append_nil]
    exact h
  | cons f tail ih =>
    intro acc done h
    have h2 := ih _ _ (AggInv_step acc done f h)
    rw [List.append_assoc] at h2
    exact h2

theorem AggInv_aggregate (flows : List FlowEntry) :
    AggInv (aggregate_protocols flows) flows := by
  have h0 : AggInv [] [] :=
    ⟨List.nodup_nil, fun x => by simp, fun q hq => by cases hq⟩
  exact AggInv_foldl flows [] [] h0

theorem aggregate_length (flows : List FlowEntry) :
    (aggregate_protocols flows).length
        = ((flows.map (fun f => f.stats.app_protocol)).dedup).length
      ∧ (aggregate_protocols flows).length < 2 ^ 31 := by
  obtain ⟨hnd, hkeys, _⟩ := AggInv_aggregate flows
  have hperm : ((aggregate_protocols flows).map Prod.fst).Perm
      ((flows.map (fun f => f.stats.app_protocol)).dedup) := by
    rw [List.perm_ext_iff_of_nodup hnd (List.nodup_dedup _)]
    intro x
    rw [hkeys, List.mem_dedup]
  have hlen := hperm.length_eq
  rw [List.length_map] at hlen
  refine ⟨hlen, ?_⟩
  have hcard := List.Nodup.length_le_card hnd
  rw [List.length_map] at hcard
  have h9 : Fintype.card AppProtocol = 9 := rfl
  omega

/-- C17: with a tracker, a buffer (`stats` not null), `maxCount > 0` and any sort
that meets the guarantees of `std::sort` for the comparator on the packet
count, `Sniffer_GetProtocolStats` returns `min(maxCount, d)`, where `d` is the
number of distinct `app_protocol` values among the flows of the table, and
writes that many rows: the rows of a list `sel` of pairs with pairwise distinct
protocols, each a protocol of some flow with the sum of `TotalPackets` and the
sum of `TotalBytes` over the flows of that protocol, both modulo `2 ^ 64`, in
an order in which the packet count does not increase. -/
theorem C17_protocol_stats {σ : Type} (api : FlowTrackerApi σ)
    (GetProtocolName : AppProtocol → String)
    (sort : List (AppProtocol × Nat × Nat) → List (AppProtocol × Nat × Nat))
    (hsort : IsStdSort (fun p => p.2.1) sort)
    (s : StatsState σ) (tracker : σ) (maxCount : Int)
    (htracker : s.g_flowTracker = some tracker) (hpos : 0 < maxCount) :
    ∃ sel : List (AppProtocol × Nat × Nat),
      Sniffer_GetProtocolStats api GetProtocolName sort s true maxCount
          = ((sel.length : Int),
              sel.map (fun p =>
                { protocolName := (GetProtocolName p.1).take 31, packetCount := p.2.1,
                  byteCount := p.2.2 }))
        ∧ (sel.length : Int)
          = min maxCount
              ((((api.GetAllFlows tracker).map (fun f => f.stats.app_protocol)).dedup.length
                : Nat) : Int)
        ∧ (sel.map Prod.fst).Nodup
        ∧ (∀ p ∈ sel,
            p.1 ∈ (api.GetAllFlows tracker).map (fun f => f.stats.app_protocol)
            ∧ p.2.1 = proto_sum (fun f => f.stats.TotalPackets) (api.GetAllFlows tracker) p.1
                        % 2 ^ 64
            ∧ p.2.2 = proto_sum (fun f => f.stats.TotalBytes) (api.GetAllFlows tracker) p.1
                        % 2 ^ 64)
        ∧ sel.Pairwise (fun x y => y.2.1 ≤ x.2.1) := by
  obtain ⟨hnd, hkeys, hvals⟩ := AggInv_aggregate (api.GetAllFlows tracker)
  obtain ⟨hlen, hfit⟩ := aggregate_length (api.GetAllFlows tracker)
  obtain ⟨hperm, hsorted⟩ := hsort (aggregate_protocols (api.GetAllFlows tracker))
  have hsl : (sort (aggregate_protocols (api.GetAllFlows tracker))).length
      = (aggregate_protocols (api.GetAllFlows tracker)).length := hperm.length_eq
  have hg : ¬ (maxCount ≤ 0) := by omega
  have hres : Sniffer_GetProtocolStats api GetProtocolName sort s true maxCount
      = (min maxCount (to_int32 (sort (aggregate_protocols (api.GetAllFlows tracker))).length),
          ((sort (aggregate_protocols (api.GetAllFlows tracker))).take
              (min maxCount
                (to_int32
                  (sort (aggregate_protocols (api.GetAllFlows tracker))).length)).toNat).map
            (fun p =>
              { protocolName := (GetProtocolName p.1).take 31, packetCount := p.2.1,
                byteCount := p.2.2 })) := by
    simp only [Sniffer_GetProtocolStats, htracker, Bool.not_true, Bool.false_or,
      decide_eq_true_eq, hg, if_false]
  obtain ⟨c1, c2⟩ := top_count_of_fits maxCount
    (aggregate_protocols (api.GetAllFlows tracker)).length hfit
  obtain ⟨t1, t2, t3, _⟩ := top_of_sorted (fun p : AppProtocol × Nat × Nat => p.2.1)
    (aggregate_protocols (api.GetAllFlows tracker))
    (sort (aggregate_protocols (api.GetAllFlows tracker)))
    (min maxCount.toNat (aggregate_protocols (api.GetAllFlows tracker)).length) hperm hsorted
  have hcount : min maxCount
      (to_int32 (sort (aggregate_protocols (api.GetAllFlows tracker))).length)
      = ((((sort (aggregate_protocols (api.GetAllFlows tracker))).take
            (min maxCount.toNat
              (aggregate_protocols (api.GetAllFlows tracker)).length)).length : Nat) : Int) := by
    rw [hsl, c2 hpos, t1]
    congr 1
    omega
  refine ⟨(sort (aggregate_protocols (api.GetAllFlows tracker))).take
      (min maxCount.toNat (aggregate_protocols (api.GetAllFlows tracker)).length), ?_, ?_, ?_,
    ?_, t3⟩
  · have hk : (min maxCount
        (to_int32 (sort (aggregate_protocols (api.GetAllFlows tracker))).length)).toNat
        = min maxCount.toNat (aggregate_protocols (api.GetAllFlows tracker)).length := by
      rw [hsl, c1]
    rw [hres, hk, hcount]
  · rw [t1, ← hlen]
    omega
  · exact top_keys_nodup Prod.fst _ _ _ hperm hnd
  · intro p hp
    have hmem := t2 p hp
    refine ⟨?_, hvals p hmem⟩
    rw [← hkeys]
    exact List.mem_map_of_mem Prod.fst hmem

/-- Witness of C17: the stand-in tracker with two HTTP flows and one DNS flow, the
insertion sort and `maxCount = 5`. -/
theorem C17_protocol_stats_witness :
    IsStdSort (fun p : AppProtocol × Nat × Nat => p.2.1) (sort_desc (fun p => p.2.1))
      ∧ threeFlowState.g_flowTracker = some ()
      ∧ (0 : Int) < 5
      ∧ ∃ sel : List (AppProtocol × Nat × Nat),
        Sniffer_GetProtocolStats threeFlowTracker sampleProtocolName
            (sort_desc (fun p => p.2.1)) threeFlowState true 5
            = ((sel.length : Int),
                sel.map (fun p =>
                  { protocolName := (sampleProtocolName p.1).take 31, packetCount := p.2.1,
                    byteCount := p.2.2 }))
          ∧ (sel.length : Int)
            = min 5
                ((((threeFlowTracker.GetAllFlows ()).map
                    (fun f => f.stats.app_protocol)).dedup.length : Nat) : Int)
          ∧ (sel.map Prod.fst).Nodup
          ∧ (∀ p ∈ sel,
              p.1 ∈ (threeFlowTracker.GetAllFlows ()).map (fun f => f.stats.app_protocol)
              ∧ p.2.1 = proto_sum (fun f => f.stats.TotalPackets)
                          (threeFlowTracker.GetAllFlows ()) p.1 % 2 ^ 64
              ∧ p.2.2 = proto_sum (fun f => f.stats.TotalBytes)
                          (threeFlowTracker.GetAllFlows ()) p.1 % 2 ^ 64)
          ∧ sel.Pairwise (fun x y => y.2.1 ≤ x.2.1) :=
  ⟨sort_desc_IsStdSort _, rfl, by decide,
    C17_protocol_stats threeFlowTracker sampleProtocolName (sort_desc (fun p => p.2.1))
      (sort_desc_IsStdSort _) threeFlowState () 5 rfl (by decide)⟩

end WareHound
